import Mathlib

/-!
# Verification of the simple-database core

A shallow embedding of the simple-database repository (query/where compiler,
relation loading, entity change tracking and persistence), together with
theorems settling the specification claims.

JavaScript runtime conventions that the embedding mirrors:
* `undefined` and `null` are distinct values (`JVal.undef` / `JVal.null`);
  a missing object property reads as `undefined`.
* Truthiness: `undefined`, `null`, `0`, `""`, `false` are falsy.
* Strict equality `===` compares scalars by value and objects by reference;
  the embedding compares scalars by value and treats comparisons between
  distinct object mentions as unequal (no self-comparison of an object
  occurs in the embedded code paths).
* Dates are modelled by an integer timestamp; two date mentions compare
  equal iff the timestamps agree (the embedded code only ever compares a
  date with itself, where this agrees with reference equality).
-/

namespace SimpleDB

/-- JavaScript values flowing through the library: column values, SQL
parameters and database row cells. `arr` models a JS array of values. -/
inductive JVal where
  | null
  | undef
  | num (n : Int)
  | str (s : String)
  | bool (b : Bool)
  | date (t : Int)
  | arr (vs : List JVal)

mutual

/-- Boolean structural equality on `JVal`. -/
def JVal.beq : JVal → JVal → Bool
  | .null, .null => true
  | .undef, .undef => true
  | .num a, .num b => a == b
  | .str a, .str b => a == b
  | .bool a, .bool b => a == b
  | .date a, .date b => a == b
  | .arr a, .arr b => JVal.beqList a b
  | _, _ => false

/-- Boolean structural equality on lists of `JVal`. -/
def JVal.beqList : List JVal → List JVal → Bool
  | [], [] => true
  | a :: as, b :: bs => JVal.beq a b && JVal.beqList as bs
  | _, _ => false

end

mutual

theorem JVal.beq_iff : ∀ a b : JVal, JVal.beq a b = true ↔ a = b
  | .null, .null => by simp [JVal.beq]
  | .undef, .undef => by simp [JVal.beq]
  | .num a, .num b => by simp [JVal.beq]
  | .str a, .str b => by simp [JVal.beq]
  | .bool a, .bool b => by simp [JVal.beq]
  | .date a, .date b => by simp [JVal.beq]
  | .arr a, .arr b => by simp [JVal.beq, JVal.beqList_iff a b]
  | .null, .undef | .null, .num _ | .null, .str _ | .null, .bool _ | .null, .date _ | .null, .arr _
  | .undef, .null | .undef, .num _ | .undef, .str _ | .undef, .bool _ | .undef, .date _ | .undef, .arr _
  | .num _, .null | .num _, .undef | .num _, .str _ | .num _, .bool _ | .num _, .date _ | .num _, .arr _
  | .str _, .null | .str _, .undef | .str _, .num _ | .str _, .bool _ | .str _, .date _ | .str _, .arr _
  | .bool _, .null | .bool _, .undef | .bool _, .num _ | .bool _, .str _ | .bool _, .date _ | .bool _, .arr _
  | .date _, .null | .date _, .undef | .date _, .num _ | .date _, .str _ | .date _, .bool _ | .date _, .arr _
  | .arr _, .null | .arr _, .undef | .arr _, .num _ | .arr _, .str _ | .arr _, .bool _ | .arr _, .date _ =>
      by simp [JVal.beq]

theorem JVal.beqList_iff : ∀ as bs : List JVal, JVal.beqList as bs = true ↔ as = bs
  | [], [] => by simp [JVal.beqList]
  | a :: as, b :: bs => by
      simp [JVal.beqList, JVal.beq_iff a b, JVal.beqList_iff as bs]
  | [], _ :: _ => by simp [JVal.beqList]
  | _ :: _, [] => by simp [JVal.beqList]

end

instance : DecidableEq JVal := fun a b => decidable_of_iff _ (JVal.beq_iff a b)

instance : BEq JVal := ⟨JVal.beq⟩

instance : LawfulBEq JVal where
  eq_of_beq h := (JVal.beq_iff _ _).1 h
  rfl := (JVal.beq_iff _ _).2 rfl

/-- JS truthiness of a value. -/
def JVal.truthy : JVal → Bool
  | .null => false
  | .undef => false
  | .num n => n != 0
  | .str s => s != ""
  | .bool b => b
  | .date _ => true
  | .arr _ => true

/-- Whether a value is an array (`Array.isArray`). -/
def JVal.isArr : JVal → Bool
  | .arr _ => true
  | _ => false

/-- JS strict equality `===` on values.  Scalars compare by value; arrays
compare by reference, which we model as unequal for distinct mentions
(the embedded code never compares an array with itself via `===`). -/
def scalarEq (a b : JVal) : Bool :=
  match a, b with
  | .arr _, _ => false
  | _, .arr _ => false
  | a, b => a == b

/-- A related entity instance as seen from an owning instance: its
existence flag, the name of its own primary column (`static.primary.name`)
and its scalar properties.  This is the storage-relevant state that the
embedded operations (`existsInDatabase`, `getPrimaryKey`) read. -/
structure MTarget where
  existsInDatabase : Bool
  primaryName : String
  props : List (String × JVal)
  deriving DecidableEq

/-- Embedding of `model.getPrimaryKey()`: reads `this[this.static.primary.name]`;
a missing property reads as `undefined`. -/
def MTarget.getPrimaryKey (t : MTarget) : JVal :=
  (t.props.lookup t.primaryName).getD (.undef)

/-- The value stored under one property of an entity instance: a plain JS
value, a single related model, or an array of related models. -/
inductive PV where
  | v (x : JVal)
  | model (t : MTarget)
  | models (ts : List MTarget)
  deriving DecidableEq

/-- Property read `obj[k]`: a missing key reads as `undefined`. -/
def getProp (props : List (String × PV)) (k : String) : PV :=
  (props.lookup k).getD (.v .undef)

/-- Property write `obj[k] = x`. -/
def setProp (props : List (String × PV)) (k : String) (x : PV) : List (String × PV) :=
  (k, x) :: props.eraseP (fun p => p.1 == k)

/-- JS truthiness of a property value (objects are truthy). -/
def PV.truthy : PV → Bool
  | .v x => x.truthy
  | .model _ => true
  | .models _ => true

/-- JS `Array.isArray(obj[k])` on a property value. -/
def pvIsArray : PV → Bool
  | .models _ => true
  | .v (.arr _) => true
  | _ => false

/-- A property value coerced to a plain value for use as a SQL parameter or
in a scalar comparison; object values are outside the modelled domain and
map to `undefined`. -/
def pvAsValue : PV → JVal
  | .v x => x
  | .model _ => (.undef)
  | .models _ => (.undef)

/-- JS strict equality between a property value and a plain value
(`this[k] === v`): scalar versus scalar compares by value, an object versus
a scalar/`null`/`undefined` is `false`. -/
def pvStrictEq : PV → JVal → Bool
  | .v a, b => scalarEq a b
  | .model _, _ => false
  | .models _, _ => false

/-- Object-map write `obj[k] = v` for plain-value records (used for
`savedProperties`, row objects and changed-field sets): overwrites an
existing key in place, otherwise appends (JS object key order). -/
def objSet (l : List (String × JVal)) (k : String) (x : JVal) : List (String × JVal) :=
  if l.any (fun p => p.1 == k) then
    l.map (fun p => if p.1 == k then (k, x) else p)
  else
    l ++ [(k, x)]

/-- Row/object read with `undefined` for a missing key. -/
def rowGet (row : List (String × JVal)) (k : String) : JVal :=
  (row.lookup k).getD (.undef)

/-! ## Column (src/classes/Column.ts) -/

/-- Column types (`decorators/Column.ts`, type `ColumnType`). -/
inductive ColumnType where
  | integer
  | number
  | string
  | boolean
  | date
  | datetime
  | json
  deriving DecidableEq

mutual

/-- Modelled from the spec: the structured-value codec boundary.  The source
encodes `json` columns through the external JSON and simple-encoding
libraries; only a deterministic total encoding matters for the claims, so we
fix a simple concrete serialization of the value domain. -/
def jsonEncode : JVal → String
  | .null => "null"
  | .undef => "undefined"
  | .num n => toString n
  | .str s => "\"" ++ s ++ "\""
  | .bool b => toString b
  | .date t => "date(" ++ toString t ++ ")"
  | .arr vs => "[" ++ jsonEncodeList vs ++ "]"

/-- Serialization of a list of values, comma-separated. -/
def jsonEncodeList : List JVal → String
  | [] => ""
  | [x] => jsonEncode x
  | x :: xs => jsonEncode x ++ "," ++ jsonEncodeList xs

end

/-- Modelled from the spec: `JSON.parse` plus the optional decoder of a
`json` column are external collaborators; decoding falls back to the parsed
payload.  We keep the raw string as an opaque parsed stand-in, which is all
the claims need (no claim decodes a structured value). -/
def jsonParse (s : String) : JVal :=
  .str s

/-- Embedding of `Column`: name, semantic type, flags and the optional
pre-save/pre-load hooks (arbitrary functions in the source). -/
structure Column where
  name : String
  type : ColumnType
  nullable : Bool := false
  primary : Bool := false
  skipUpdate : Bool := false
  beforeSave : Option (JVal → JVal) := none
  beforeLoad : Option (JVal → JVal) := none

/-- Embedding of `Column.to` (convert to database from javascript):
nullability check first, then the per-type conversion; `boolean` maps by
truthiness to `1`/`0`; `json` stringifies with a version wrapper. -/
def Column.to (c : Column) (data : JVal) : Except String JVal :=
  if data = .null then
    if c.nullable then .ok .null
    else .error "Tried to set null to non-nullable value. Expected a non-nullable value"
  else
    match c.type with
    | .integer => .ok data
    | .number => .ok data
    | .string => .ok data
    | .boolean => .ok (if data.truthy then .num 1 else .num 0)
    | .date => .ok data
    | .datetime => .ok data
    | .json => .ok (.str ("\x7b\"version\":0,\"value\":" ++ jsonEncode data ++ "\x7d"))

/-- Embedding of `Column.from` (convert from database to javascript):
optional `beforeLoad` hook, nullability check, then the per-type checks
(`integer` requires an integral number, `boolean` requires `1`/`0`,
`json` requires a string). -/
def Column.from (c : Column) (data0 : JVal) : Except String JVal :=
  let data := match c.beforeLoad with
    | some f => f data0
    | none => data0
  if data = .null then
    if c.nullable then .ok .null
    else .error ("Received null value from database. Expected a non-nullable value for " ++ c.name)
  else
    match c.type with
    | .integer =>
      match data with
      | .num _ => .ok data
      | _ => .error "Expected integer"
    | .number => .ok data
    | .string => .ok data
    | .boolean =>
      match data with
      | .num 1 => .ok (.bool true)
      | .num 0 => .ok (.bool false)
      | _ => .error "Expected boolean"
    | .date => .ok data
    | .datetime => .ok data
    | .json =>
      match data with
      | .str s => .ok (jsonParse s)
      | _ => .error "Expected string for JSON column"

/-- Embedding of `Column.isChanged(old, now)`, which is `now !== old` in the
source (`src/classes/Column.ts`). -/
def Column.isChanged (_c : Column) (old now : JVal) : Bool :=
  !(scalarEq now old)

/-! ## Model schema and instances (src/classes/Model.ts) -/

/-- Embedding of a `ManyToOneRelation` descriptor as used by `Model.save`
and `Model.markSaved`: the mapped property name and the owning foreign-key
column name. -/
structure MTORel where
  modelKey : String
  foreignKey : String
  deriving DecidableEq

/-- The static side of a `Model` subclass: table name, primary column,
declared columns (a `Map` keyed by column name in the source, hence the
names are pairwise distinct) and declared single-valued relations. -/
structure Schema where
  table : String
  primary : Option Column
  columns : List Column
  relations : List MTORel

/-- An entity instance: existence flag, dynamic properties, the
saved-values snapshot and the force-save set. -/
structure MInst where
  existsInDatabase : Bool := false
  props : List (String × PV) := []
  savedProperties : List (String × JVal) := []
  forceSaveProperties : List String := []

/-- Embedding of `ManyToOneRelation.isLoaded`:
`model[this.modelKey] !== undefined`. -/
def MTORel.isLoaded (r : MTORel) (m : MInst) : Bool :=
  getProp m.props r.modelKey != .v (.undef)

/-- Embedding of `ManyToOneRelation.isSet`:
`model[this.modelKey] !== undefined && model[this.modelKey] !== null`. -/
def MTORel.isSet (r : MTORel) (m : MInst) : Bool :=
  getProp m.props r.modelKey != .v .undef && getProp m.props r.modelKey != .v .null

/-- Embedding of `OneToManyRelation.isLoaded`:
`Array.isArray(model[this.modelKey])` (also not loaded if `null`). -/
def OneToManyRelation.isLoaded (modelKey : String) (m : MInst) : Bool :=
  pvIsArray (getProp m.props modelKey)

/-- Embedding of `Model.setRelation` at the level of arbitrary property
values.  The source checks `!value.existsInDatabase`: on a genuine model
that reads the flag; on an array or a scalar the property access yields
`undefined` (falsy) and the same error is thrown; on `null`/`undefined` the
access itself is a `TypeError`.  On success the mapped property and the
foreign-key column are assigned. -/
def setRelationPV (r : MTORel) (m : MInst) (value : PV) : Except String MInst :=
  match value with
  | .model t =>
    if !t.existsInDatabase then
      .error "You cannot set a relation to a model that are not yet saved in the database."
    else
      .ok { m with props := setProp (setProp m.props r.modelKey value) r.foreignKey (.v t.getPrimaryKey) }
  | .models _ => .error "You cannot set a relation to a model that are not yet saved in the database."
  | .v .null => .error "TypeError: Cannot read properties of null (reading existsInDatabase)"
  | .v .undef => .error "TypeError: Cannot read properties of undefined (reading existsInDatabase)"
  | .v _ => .error "You cannot set a relation to a model that are not yet saved in the database."

/-- Embedding of `Model.setRelation` applied to a model target. -/
def Model.setRelation (r : MTORel) (m : MInst) (t : MTarget) : Except String MInst :=
  setRelationPV r m (.model t)

/-- Embedding of `Model.setOptionalRelation`: a non-null target must exist
in the database; the mapped property is assigned and the foreign-key column
becomes the target's primary key, or `null` for a `null` target. -/
def Model.setOptionalRelation (r : MTORel) (m : MInst) (value : Option MTarget) : Except String MInst :=
  match value with
  | some t =>
    if !t.existsInDatabase then
      .error "You cannot set a relation to a model that are not yet saved in the database."
    else
      .ok { m with props := setProp (setProp m.props r.modelKey (.model t)) r.foreignKey (.v t.getPrimaryKey) }
  | none =>
    .ok { m with props := setProp (setProp m.props r.modelKey (.v .null)) r.foreignKey (.v .null) }

/-- Embedding of `Model.setManyRelation`: every target must exist in the
database (checked before any assignment); only the mapped property is
assigned. -/
def Model.setManyRelation (modelKey : String) (m : MInst) (ts : List MTarget) : Except String MInst :=
  if ts.any (fun t => !t.existsInDatabase) then
    .error "You cannot set a relation to models that are not yet saved in the database."
  else
    .ok { m with props := setProp m.props modelKey (.models ts) }

/-! ## markSaved / fromRow / change tracking / save (src/classes/Model.ts) -/

/-- Column loop of `Model.markSaved`: for every column whose source value
(`fields` entry when given, otherwise the in-memory property) is not
`undefined`, store that source value into `savedProperties` (running
`column.to` on the in-memory property when no `fields` were given). -/
def markSavedColumns (props : List (String × PV)) (fields : Option (List (String × JVal))) :
    List Column → List (String × JVal) → Except String (List (String × JVal))
  | [], saved => .ok saved
  | c :: cs, saved =>
    match fields with
    | some f =>
      if rowGet f c.name ≠ .undef then
        markSavedColumns props fields cs (objSet saved c.name (rowGet f c.name))
      else
        markSavedColumns props fields cs saved
    | none =>
      if getProp props c.name ≠ .v .undef then
        match getProp props c.name with
        | .v x => do
          let sv ← c.to x
          markSavedColumns props fields cs (objSet saved c.name sv)
        | _ => .error "non-scalar column value (outside the modelled JS domain)"
      else
        markSavedColumns props fields cs saved

/-- Relation loop of `Model.markSaved`: for every loaded relation,
resynchronize the foreign-key column from the target's primary key (or to
`null` when the relation is loaded but cleared).  A loaded value that is no
model raises a `TypeError` in JS (`getPrimaryKey` is not a function). -/
def markSavedRelations (props : List (String × PV)) : List MTORel → Except String (List (String × PV))
  | [] => .ok props
  | r :: rs =>
    if getProp props r.modelKey ≠ PV.v .undef then
      if getProp props r.modelKey ≠ PV.v .null then
        match getProp props r.modelKey with
        | .model t => markSavedRelations (setProp props r.foreignKey (.v t.getPrimaryKey)) rs
        | _ => .error "TypeError: getPrimaryKey is not a function"
      else
        markSavedRelations (setProp props r.foreignKey (.v .null)) rs
    else
      markSavedRelations props rs

/-- Embedding of `Model.markSaved`: sets the existence flag, clears the
force-save set, refreshes the snapshot from the given fields (or from the
current properties) and resynchronizes loaded relations' foreign keys. -/
def Model.markSaved (S : Schema) (m : MInst) (fields : Option (List (String × JVal))) : Except String MInst := do
  let saved ← markSavedColumns m.props fields S.columns m.savedProperties
  let props ← markSavedRelations m.props S.relations
  .ok { existsInDatabase := true, props := props, savedProperties := saved, forceSaveProperties := [] }

/-- Guard of `Model.fromRow`:
`this.primary && (row[primary.name] === null || row[primary.name] === undefined)`. -/
def primaryMissing (S : Schema) (row : List (String × JVal)) : Bool :=
  match S.primary with
  | some p => rowGet row p.name == JVal.null || rowGet row p.name == JVal.undef
  | none => false

/-- Column loop of `Model.fromRow`: present row cells are decoded with
`column.from`; absent cells overwrite the property with `undefined` so that
the default value of a class field cannot be saved accidentally. -/
def fromRowProps (row : List (String × JVal)) :
    List Column → List (String × PV) → Except String (List (String × PV))
  | [], props => .ok props
  | c :: cs, props =>
    if rowGet row c.name ≠ .undef then do
      let v ← c.from (rowGet row c.name)
      fromRowProps row cs (setProp props c.name (.v v))
    else
      fromRowProps row cs (setProp props c.name (.v .undef))

/-- Embedding of `Model.fromRow`: `undefined` rows and rows with a
`null`/missing primary key yield no instance; otherwise a fresh instance is
populated from the row and marked saved. -/
def Model.fromRow (S : Schema) (row : Option (List (String × JVal))) : Except String (Option MInst) :=
  match row with
  | none => .ok none
  | some row =>
    if primaryMissing S row then .ok none
    else do
      let props ← fromRowProps row S.columns []
      let m ← Model.markSaved S { existsInDatabase := false, props := props } none
      .ok (some m)

/-- Result of `Model.getChangedDatabaseProperties`: the changed-field set
and the number of included columns that are skip-update-only. -/
structure ChangedResult where
  fields : List (String × JVal)
  skipUpdate : Nat
  deriving DecidableEq

/-- Whether the schema's primary column carries the given name
(`this.static.primary.name === n`). -/
def primaryNameIs (S : Schema) (n : String) : Bool :=
  match S.primary with
  | some p => p.name == n
  | none => false

/-- Column loop of `Model.getChangedDatabaseProperties`: skips the
auto-increment primary key, rejects a transient instance with an undefined
column, and includes a column when it is force-saved or its encoded value
differs from the snapshot (a missing snapshot entry always counts as
changed), counting skip-update-only inclusions. -/
def getChangedAux (S : Schema) (m : MInst) :
    List Column → ChangedResult → Except String ChangedResult
  | [], acc => .ok acc
  | c :: cs, acc =>
    if c.primary ∧ c.type = ColumnType.integer ∧ primaryNameIs S "id" then
      getChangedAux S m cs acc
    else if ¬ m.existsInDatabase ∧ getProp m.props c.name = .v .undef then
      .error ("Tried to create model with undefined property " ++ c.name)
    else if getProp m.props c.name ≠ .v .undef then
      match getProp m.props c.name with
      | .v x => do
        let forceSave := m.forceSaveProperties.contains c.name
        let oldSaved : Option JVal := if forceSave then none else m.savedProperties.lookup c.name
        let saveValue ← if forceSave then pure JVal.null else c.to x
        let changed := match oldSaved with
          | none => true
          | some o => c.isChanged o saveValue
        if forceSave || changed then do
          let setVal ← if forceSave then c.to x else pure saveValue
          getChangedAux S m cs
            ⟨objSet acc.fields c.name setVal,
             if c.skipUpdate && !forceSave then acc.skipUpdate + 1 else acc.skipUpdate⟩
        else
          getChangedAux S m cs acc
      | _ => .error "non-scalar column value (outside the modelled JS domain)"
    else
      getChangedAux S m cs acc

/-- Embedding of `Model.getChangedDatabaseProperties`. -/
def Model.getChangedDatabaseProperties (S : Schema) (m : MInst) : Except String ChangedResult :=
  getChangedAux S m S.columns ⟨[], 0⟩

/-- Embedding of `Model.beforeSave`: run every column's optional pre-save
transform over the in-memory property. -/
def Model.beforeSave (props : List (String × PV)) : List Column → List (String × PV)
  | [] => props
  | c :: cs =>
    match c.beforeSave with
    | some f => Model.beforeSave (setProp props c.name (.v (f (pvAsValue (getProp props c.name))))) cs
    | none => Model.beforeSave props cs

/-- Relation-consistency check at the start of `Model.save`: a loaded and
set relation requires a persisted target whose primary key equals the
foreign-key column; a loaded but cleared relation requires a `null`
foreign-key column.  A loaded value that is no model reads
`existsInDatabase` as `undefined` and fails the persistence check. -/
def relationCheck (m : MInst) (r : MTORel) : Except String Unit :=
  if r.isLoaded m then
    if r.isSet m then
      match getProp m.props r.modelKey with
      | .model t =>
        if !t.existsInDatabase then
          .error "You cannot set a relation that is not yet saved in the database."
        else if !pvStrictEq (getProp m.props r.foreignKey) t.getPrimaryKey then
          .error "You cannot modify the value of a foreign key when the relation is loaded. Unload the relation first or modify the relation with setRelation"
        else
          .ok ()
      | _ => .error "You cannot set a relation that is not yet saved in the database."
    else
      if !pvStrictEq (getProp m.props r.foreignKey) .null then
        .error "You cannot set a foreign key when the relation is loaded. Unload the relation first or modify the relation with setRelation"
      else
        .ok ()
  else
    .ok ()

/-- Relation loop at the start of `Model.save`. -/
def checkRelations (m : MInst) : List MTORel → Except String Unit
  | [] => .ok ()
  | r :: rs => do
    let _ ← relationCheck m r
    checkRelations m rs

/-- A SQL write statement issued by `Model.save`. -/
inductive Stmt where
  | insertInto (table : String) (fields : List (String × JVal))
  | updateById (table : String) (fields : List (String × JVal)) (primaryName : String) (id : JVal)
  deriving DecidableEq

/-- The storage collaborator's reply to a write statement (spec boundary:
`\x7b insertId, affectedRows \x7d` / `\x7b changedRows, affectedRows \x7d`). -/
structure DBResult where
  insertId : Int := 1
  changedRows : Int := 1
  affectedRows : Nat := 1

/-- Embedding of `Model.save`.  Returns the list of issued statements (in
order), the boolean the source returns (`false` means no-op) and the
instance state after the call.  The lifecycle notification at the end of
the source performs no state change and is not modelled.  An `error` result
models a thrown exception: nothing was returned, and because every throw in
the source happens before any assignment, the instance is unchanged and the
listed statements are exactly those issued before the throw (none, since
both throws of the relation/primary checks precede the statement and
`markSaved` can only fail on inputs outside the modelled domain). -/
def Model.save (db : DBResult) (S : Schema) (m : MInst) : Except String (List Stmt × Bool × MInst) :=
  if S.table = "" then .error "Table name not set"
  else
    match S.primary with
    | none => .error "Primary key not set for model"
    | some primary => do
      let _ ← checkRelations m S.relations
      let id := getProp m.props primary.name
      let _ ← (if !id.truthy then
                 if m.existsInDatabase then
                   Except.error "Model was loaded from the Database, but didn't select the ID. Saving not possible."
                 else .ok ()
               else
                 if !m.existsInDatabase ∧ primary.type = ColumnType.integer ∧ primary.name = "id" then
                   Except.error "PrimaryKey was set programmatically without fetching the model from the database. This is not allowed for integer primary keys."
                 else .ok ())
      let m1 : MInst := { m with props := Model.beforeSave m.props S.columns }
      let cr ← Model.getChangedDatabaseProperties S m1
      if cr.fields.length = 0 then .ok ([], false, m1)
      else if m1.existsInDatabase ∧ cr.skipUpdate = cr.fields.length then .ok ([], false, m1)
      else if !m1.existsInDatabase then do
        let stmt := Stmt.insertInto S.table cr.fields
        let (m2, fields2) :=
          if primary.type = ColumnType.integer ∧ primary.name = "id" then
            ({ m1 with props := setProp m1.props primary.name (.v (.num db.insertId)) },
             objSet cr.fields primary.name (.num db.insertId))
          else (m1, cr.fields)
        let m3 ← Model.markSaved S m2 (some fields2)
        .ok ([stmt], true, m3)
      else do
        let stmt := Stmt.updateById S.table cr.fields primary.name (pvAsValue id)
        let m3 ← Model.markSaved S m1 (some cr.fields)
        .ok ([stmt], true, m3)

/-! ## Filter expression tree (src/classes/Query.ts) -/

/-- Modelled from the spec: identifiers needing escaping are passed through
an `escapeId` collaborator function of the external mysql driver; backtick
quoting is its documented behaviour for plain identifiers. -/
def escapeId (s : String) : String :=
  "`" ++ s ++ "`"

/-- A column selector: a bare column name, or a column qualified by an
explicit namespace and/or an owning model (whose table supplies the
namespace). -/
inductive ColSel where
  | plain (column : String)
  | scoped (column : String) (ns : Option String) (modelTable : Option String)
  deriving DecidableEq

/-- Embedding of `columnToString`: a bare name resolves against the
caller-supplied default namespace; a qualified selector resolves against
`namespace ?? model?.table ?? defaultNamespace`. -/
def columnToString : ColSel → Option String → String
  | .plain c, some ns => escapeId ns ++ "." ++ escapeId c
  | .plain c, none => escapeId c
  | .scoped c ns mt, dflt =>
    match (ns.or mt).or dflt with
    | some n => escapeId n ++ "." ++ escapeId c
    | none => escapeId c

/-- Embedding of `WhereSign`. -/
inductive WhereSign where
  | Equal
  | NotEqual
  deriving DecidableEq

/-- Sign inversion as performed by `WhereEqual.invert`. -/
def WhereSign.invert : WhereSign → WhereSign
  | .Equal => .NotEqual
  | .NotEqual => .Equal

/-- The value side of a `WhereEqual` leaf: a raw value (`ColumnRawValue`)
or a column selector used as the right-hand side. -/
inductive CV where
  | value (x : JVal)
  | colref (c : ColSel)
  deriving DecidableEq

/-- Embedding of the `Where` expression tree: `WhereEqual` leaves and the
`WhereAnd` / `WhereOr` / `WhereNot` combinators. -/
inductive Where where
  | whereEq (column : ColSel) (sign : WhereSign) (value : CV)
  | whereAnd (a b : Where)
  | whereOr (a b : Where)
  | whereNot (a : Where)
  deriving DecidableEq

/-- Embedding of the `isSingle` getter: `WhereEqual` is single, `WhereNot`
delegates to its operand, compounds are not single. -/
def Where.isSingle : Where → Bool
  | .whereEq _ _ _ => true
  | .whereNot a => a.isSingle
  | _ => false

/-- Embedding of `WhereEqual.getSQL`.  The source tests the value's shape
in order: an array compiles to `IN (?)` / `NOT IN (?)` with the whole array
as the single parameter; a scalar (string/number/boolean/Date) compiles to
`= ?` / `!= ?`; `null` compiles to `IS NULL` / `IS NOT NULL` with no
parameter; anything else is treated as a column selector and compared
column-to-column.  A top-level `undefined` cannot occur (the TS type
`ColumnRawValue` excludes it); it is lumped with the scalar case for
totality. -/
def whereEqualSQL (column : ColSel) (sign : WhereSign) (value : CV) (dflt : Option String) :
    String × List JVal :=
  match value with
  | .value (.arr vs) =>
    (columnToString column dflt ++ (if sign = .NotEqual then " NOT IN (?)" else " IN (?)"),
     [.arr vs])
  | .value .null =>
    (columnToString column dflt ++ " IS " ++ (if sign = .NotEqual then "NOT " else "") ++ "NULL",
     [])
  | .value x =>
    (columnToString column dflt ++ (if sign = .NotEqual then " != ?" else " = ?"), [x])
  | .colref c =>
    (columnToString column dflt ++ (if sign = .NotEqual then " != " else " = ")
       ++ columnToString c dflt, [])

/-- Embedding of `Where.getSQL` over the whole tree.  `WhereAnd`/`WhereOr`
parenthesize a side only when it is not single; `WhereNot` optimizes a
`WhereEqual` operand to the sign-inverted leaf and wraps anything else in
`NOT (...)`. -/
def Where.getSQL : Where → Option String → String × List JVal
  | .whereEq c s v, dflt => whereEqualSQL c s v dflt
  | .whereAnd a b, dflt =>
    let sqlA := a.getSQL dflt
    let sqlB := b.getSQL dflt
    let queryA := if a.isSingle then sqlA.1 else "(" ++ sqlA.1 ++ ")"
    let queryB := if b.isSingle then sqlB.1 else "(" ++ sqlB.1 ++ ")"
    (queryA ++ " AND " ++ queryB, sqlA.2 ++ sqlB.2)
  | .whereOr a b, dflt =>
    let sqlA := a.getSQL dflt
    let sqlB := b.getSQL dflt
    let queryA := if a.isSingle then sqlA.1 else "(" ++ sqlA.1 ++ ")"
    let queryB := if b.isSingle then sqlB.1 else "(" ++ sqlB.1 ++ ")"
    (queryA ++ " OR " ++ queryB, sqlA.2 ++ sqlB.2)
  | .whereNot a, dflt =>
    match a with
    | .whereEq c s v => whereEqualSQL c s.invert v dflt
    | a =>
      let sqlA := a.getSQL dflt
      ("NOT (" ++ sqlA.1 ++ ")", sqlA.2)

/-! ## Legacy where-operator compiler (Model.buildWhereOperator) -/

/-- Embedding of `Model.buildWhereOperator` for a table: compiles one
`\x7b sign, value, mode? \x7d` leaf of the deprecated `Model.where` API to a SQL
fragment plus parameters.  Mirrors the source's `switch` on the sign,
including the `IN` rewriting for lists containing `null`. -/
def buildWhereOperator (table key : String) (sign : String) (value : JVal)
    (mode : Option String) : Except String (String × List JVal) :=
  let col := "`" ++ table ++ "`.`" ++ key ++ "`"
  match sign with
  | "MATCH" =>
    match mode with
    | some m =>
      if m = "" then .ok ("MATCH(" ++ col ++ ") AGAINST(?)", [value])
      else if m = "BOOLEAN" then .ok ("MATCH(" ++ col ++ ") AGAINST(? IN BOOLEAN MODE)", [value])
      else .error ("Unknown match mode " ++ m)
    | none => .ok ("MATCH(" ++ col ++ ") AGAINST(?)", [value])
  | "LIKE" => .ok (col ++ " LIKE ?", [value])
  | "!=" =>
    if value = .null then .ok (col ++ " IS NOT NULL", [])
    else .ok (col ++ " != ?", [value])
  | "<" => .ok (col ++ " < ?", [value])
  | ">" => .ok (col ++ " > ?", [value])
  | "<=" => .ok (col ++ " <= ?", [value])
  | ">=" => .ok (col ++ " >= ?", [value])
  | "=" =>
    if value = .null then .ok (col ++ " IS NULL", [])
    else .ok (col ++ " = ?", [value])
  | "IN" =>
    match value with
    | .arr vs =>
      if vs.contains JVal.null then
        match vs.filter (fun v => v ≠ .null) with
        | [] => .ok (col ++ " IS NULL", [])
        | [x] => .ok ("(" ++ col ++ " = ? OR " ++ col ++ " IS NULL)", [x])
        | xs => .ok ("(" ++ col ++ " IN (?) OR " ++ col ++ " IS NULL)", [.arr xs])
      else
        .ok (col ++ " IN (?)", [.arr vs])
    | _ => .error "Expected an array for IN where query"
  | _ => .error "Sign not supported."

/-! ## Select queries (src/classes/Query.ts) -/

/-- Join types of `Query.ts`. -/
inductive JoinType where
  | Inner
  | Left
  | Right
  deriving DecidableEq

/-- Embedding of a `Join` entry: joined table, optional alias, ON filter,
type and the `select` flag controlling projection. -/
structure JoinItem where
  table : String
  namespaceOpt : Option String := none
  onW : Option Where := none
  joinType : JoinType := .Inner
  selectFlag : Bool := true
  deriving DecidableEq

/-- Embedding of the `namespace` getter: `this._namespace ?? this.model.table`. -/
def JoinItem.namespaceName (j : JoinItem) : String :=
  j.namespaceOpt.getD j.table

/-- Embedding of `Join.getSQL`: join keyword, escaped table (aliased when
the namespace differs) and the ON condition compiled against the join's own
namespace. -/
def JoinItem.getSQL (j : JoinItem) : String × List JVal :=
  let kw := match j.joinType with
    | .Left => "LEFT JOIN"
    | .Right => "RIGHT JOIN"
    | .Inner => "JOIN"
  let q := kw ++ " " ++ escapeId j.table
    ++ (if j.table ≠ j.namespaceName then " AS " ++ escapeId j.namespaceName else "")
  match j.onW with
  | some w =>
    let s := w.getSQL (some j.namespaceName)
    (q ++ " ON " ++ s.1, s.2)
  | none => (q, [])

/-- Embedding of `Model.getDefaultSelect`. -/
def getDefaultSelect (ns : String) : String :=
  escapeId ns ++ ".*"

/-- The value content of a `SelectQuery`: base table, optional explicit
projection, filter tree, join list, limit and the registered post-fetch
hooks (abstract tokens).  This is the state a query object denotes; the
heap-based `QueryObj` below adds JS reference semantics on top of it. -/
structure SQueryVal where
  table : String
  columns : Option (List String) := none
  whereW : Option Where := none
  joins : List JoinItem := []
  limitv : Option (Int × Option Int) := none
  hooks : List Nat := []
  deriving DecidableEq

/-- Embedding of `Query.where` on the query's value: AND onto an existing
filter, otherwise install the filter. -/
def SQueryVal.whereVal (q : SQueryVal) (w : Where) : SQueryVal :=
  match q.whereW with
  | none => { q with whereW := some w }
  | some cw => { q with whereW := some (.whereAnd cw w) }

/-- Embedding of `SelectQuery.getSQL`: projection of the base table (or the
explicit column list) plus each selectable join's projection, joins in
registration order, the WHERE clause and LIMIT/OFFSET. -/
def SQueryVal.getSQL (q : SQueryVal) : String × List JVal :=
  let ns := q.table
  let select0 := match q.columns with
    | some cols => String.intercalate ", " cols
    | none => getDefaultSelect ns
  let joinSelects :=
    String.intercalate ", " ((q.joins.filter (fun j => j.selectFlag)).map
      (fun j => getDefaultSelect j.namespaceName))
  let select := if joinSelects ≠ "" then select0 ++ ", " ++ joinSelects else select0
  let base := "SELECT " ++ select ++ " FROM " ++ escapeId q.table
  let withJoins := q.joins.foldl (fun acc j =>
      let s := j.getSQL
      (acc.1 ++ " " ++ s.1, acc.2 ++ s.2)) (base, ([] : List JVal))
  let withWhere := match q.whereW with
    | some w =>
      let s := w.getSQL (some ns)
      (withJoins.1 ++ " WHERE " ++ s.1, withJoins.2 ++ s.2)
    | none => withJoins
  match q.limitv with
  | some (l, off) =>
    (withWhere.1 ++ " LIMIT " ++ toString l
       ++ (match off with
           | some o => if o ≠ 0 then " OFFSET " ++ toString o else ""
           | none => ""),
     withWhere.2)
  | none => withWhere

/-- Embedding of the array branch of `Query.parseWhere`: an empty array is
rejected, otherwise the filters are folded left with AND. -/
def parseWhereList (ws : List Where) : Except String Where :=
  match ws with
  | [] => .error "Empty where"
  | w :: rest => .ok (rest.foldl (fun c x => Where.whereAnd c x) w)

/-- Embedding of the bare-object branch of `Query.parseWhere`: each
key/value pair becomes an equality leaf and the list is folded with AND. -/
def parseWhereObj (kvs : List (String × CV)) : Except String Where :=
  parseWhereList (kvs.map (fun kv => Where.whereEq (.plain kv.1) .Equal kv.2))

/-! ## Query objects with JS reference semantics (for copy-on-write claims)

A JS query object holds *references* to its mutable `_join` and `postFetch`
arrays.  `clone` copies the scalar fields and slices both arrays into fresh
ones; the builder methods then push onto the clone's arrays.  We model this
with an explicit heap of array cells: a `QueryObj` stores cell indices, and
the builder operations mirror exactly the source's clone-then-mutate
pattern.  The immutable `Where` trees are shared by `Object.assign`, which
is sound because the source never mutates a tree in place (`inverted()`
clones before `invert()`). -/

/-- Heap of array cells referenced by query objects. -/
structure QHeap where
  joinCells : List (List JoinItem)
  hookCells : List (List Nat)

/-- Read an array cell (a dangling index reads as an empty array; the
theorems only use valid indices). -/
def cellGet (cells : List (List α)) (i : Nat) : List α :=
  cells.getD i []

/-- A query object: scalar fields plus references to its `_join` and
`postFetch` array cells. -/
structure QueryObj where
  table : String
  columns : Option (List String) := none
  whereW : Option Where := none
  joinRef : Nat
  hookRef : Nat
  limitv : Option (Int × Option Int) := none

/-- The value a query object currently denotes. -/
def QueryObj.view (h : QHeap) (q : QueryObj) : SQueryVal :=
  { table := q.table, columns := q.columns, whereW := q.whereW,
    joins := cellGet h.joinCells q.joinRef, limitv := q.limitv,
    hooks := cellGet h.hookCells q.hookRef }

/-- Embedding of `SelectQuery.clone`: a fresh object with the same scalar
fields whose `_join` and `postFetch` arrays are sliced into fresh cells. -/
def QueryObj.clone (h : QHeap) (q : QueryObj) : QHeap × QueryObj :=
  ({ joinCells := h.joinCells ++ [cellGet h.joinCells q.joinRef],
     hookCells := h.hookCells ++ [cellGet h.hookCells q.hookRef] },
   { q with joinRef := h.joinCells.length, hookRef := h.hookCells.length })

/-- Embedding of `Query.where` (also `andWhere`, which just calls `where`):
clone, then AND the parsed filter onto the clone's filter. -/
def QueryObj.whereOp (h : QHeap) (q : QueryObj) (w : Where) : QHeap × QueryObj :=
  let hc := q.clone h
  (hc.1, match hc.2.whereW with
         | none => { hc.2 with whereW := some w }
         | some cw => { hc.2 with whereW := some (.whereAnd cw w) })

/-- Embedding of `Query.orWhere`: clone, then OR the parsed filter onto the
clone's filter. -/
def QueryObj.orWhereOp (h : QHeap) (q : QueryObj) (w : Where) : QHeap × QueryObj :=
  let hc := q.clone h
  (hc.1, match hc.2.whereW with
         | none => { hc.2 with whereW := some w }
         | some cw => { hc.2 with whereW := some (.whereOr cw w) })

/-- Embedding of `Query.whereNot` / `andWhereNot`: `andWhere(new
WhereNot(w))`. -/
def QueryObj.whereNotOp (h : QHeap) (q : QueryObj) (w : Where) : QHeap × QueryObj :=
  q.whereOp h (.whereNot w)

/-- Embedding of `Query.orWhereNot`: `orWhere(new WhereNot(w))`. -/
def QueryObj.orWhereNotOp (h : QHeap) (q : QueryObj) (w : Where) : QHeap × QueryObj :=
  q.orWhereOp h (.whereNot w)

/-- Embedding of `Query.join` / `leftJoin` / `rightJoin`: clone, then push
the new join entry onto the clone's `_join` cell. -/
def QueryObj.joinOp (h : QHeap) (q : QueryObj) (j : JoinItem) : QHeap × QueryObj :=
  let hc := q.clone h
  ({ hc.1 with joinCells :=
       hc.1.joinCells.set hc.2.joinRef (cellGet hc.1.joinCells hc.2.joinRef ++ [j]) },
   hc.2)

/-- Embedding of `SelectQuery.limit`: clone, then set the limit. -/
def QueryObj.limitOp (h : QHeap) (q : QueryObj) (l : Int) (off : Option Int) : QHeap × QueryObj :=
  let hc := q.clone h
  (hc.1, { hc.2 with limitv := some (l, off) })

/-- Embedding of `with(relation)` for a single-valued relation
(`ToOne.apply`): an inner (or left, if optional) join of the target keyed on
`target.primary = owner.foreignKey`, then a post-fetch hook pushed onto the
new query's `postFetch` cell. -/
def QueryObj.withToOneOp (h : QHeap) (q : QueryObj) (targetTable targetPrimary fk : String)
    (opt : Bool) (hook : Nat) : QHeap × QueryObj :=
  let onW := Where.whereEq (.plain targetPrimary) .Equal (.colref (.scoped fk none (some q.table)))
  let hc := q.joinOp h
    { table := targetTable, onW := some onW, joinType := if opt then .Left else .Inner }
  ({ hc.1 with hookCells :=
       hc.1.hookCells.set hc.2.hookRef (cellGet hc.1.hookCells hc.2.hookRef ++ [hook]) },
   hc.2)

/-- Embedding of `with(relation)` for a multi-valued relation
(`ToMany.apply`): clone, then push the batch-load post-fetch hook (a
one-to-many relation is deliberately not join-based). -/
def QueryObj.withToManyOp (h : QHeap) (q : QueryObj) (hook : Nat) : QHeap × QueryObj :=
  let hc := q.clone h
  ({ hc.1 with hookCells :=
       hc.1.hookCells.set hc.2.hookRef (cellGet hc.1.hookCells hc.2.hookRef ++ [hook]) },
   hc.2)

/-! ## Batch relation loading (src/classes/relations/ToOne.ts) -/

/-- Embedding of the `uniqueArray` helper.  The source keeps exactly the
elements whose index is the first occurrence of their value
(`array.filter((v, i, self) => self.indexOf(v) === i)`); folding left while
keeping a seen-prefix computes the same first-occurrence list. -/
def uniqueArray {α : Type} [DecidableEq α] (l : List α) : List α :=
  l.foldl (fun acc x => if x ∈ acc then acc else acc ++ [x]) []

/-- Embedding of a `ToOne` relation descriptor: target table and primary
name, mapped key, owning foreign key and the optional flag.  Nested
`_withRelations` composition is not modelled; the load theorems are about a
bare relation. -/
structure ToOneRel where
  table : String
  primaryName : String
  modelKey : String
  foreignKey : String
  optionalFlag : Bool := false

/-- Embedding of `ToOne.setRelations`: for each owner, an optional relation
with a `null` foreign key is cleared via `setRelation(this, null)` (which
throws a `TypeError` in the source, since `setRelation` reads
`existsInDatabase` of `null`); otherwise the joined target with matching
primary key is assigned, and a missing match is a hard failure. -/
def toOneSetRelations (r : ToOneRel) (loaded : List MTarget) :
    List MInst → Except String (List MInst)
  | [] => .ok []
  | m :: ms =>
    if r.optionalFlag && (getProp m.props r.foreignKey == PV.v .null) then do
      let m2 ← setRelationPV ⟨r.modelKey, r.foreignKey⟩ m (.v .null)
      let ms2 ← toOneSetRelations r loaded ms
      .ok (m2 :: ms2)
    else
      match loaded.find? (fun t => pvStrictEq (getProp m.props r.foreignKey) t.getPrimaryKey) with
      | none => .error ("Could not load toOne relation: no match found when loading " ++ r.table)
      | some found => do
        let m2 ← Model.setRelation ⟨r.modelKey, r.foreignKey⟩ m found
        let ms2 ← toOneSetRelations r loaded ms
        .ok (m2 :: ms2)

/-- Embedding of `ToOne.load`: de-duplicate the owners' foreign-key values;
an empty id set short-circuits with no query; otherwise one select
constrained to the id set is issued (the `db` collaborator materializes its
rows) and the targets are assigned.  Returns the issued queries in order
together with the call's result. -/
def ToOne.load (db : String × List JVal → List MTarget) (r : ToOneRel) (models : List MInst) :
    List (String × List JVal) × Except String (List MInst) :=
  let ids := uniqueArray (models.map (fun m => pvAsValue (getProp m.props r.foreignKey)))
  if ids.length = 0 then
    ([], (toOneSetRelations r [] models).map (fun _ => models))
  else
    let q := (SQueryVal.whereVal { table := r.table }
        (Where.whereEq (.plain r.primaryName) .Equal (.value (.arr ids)))).getSQL
    (q :: [], toOneSetRelations r (db q) models)

/-- Embedding of a `ToMany` relation descriptor: target table, mapped key
and the target-side foreign key. -/
structure ToManyRel where
  table : String
  modelKey : String
  foreignKey : String

/-- Embedding of `ToMany.setRelations`: each owner receives the targets
whose foreign key matches its primary key — via `model.setRelation(this,
filteredArray)`, which in the source passes an array where a model is
expected, so `array.existsInDatabase` reads `undefined` and `setRelation`
throws for every owner.  `ownerPk` is the owners' `static.primary.name`. -/
def toManySetRelations (ownerPk : String) (r : ToManyRel) (loaded : List MTarget) :
    List MInst → Except String (List MInst)
  | [] => .ok []
  | m :: ms => do
    let filtered := loaded.filter
      (fun t => scalarEq (rowGet t.props r.foreignKey) (pvAsValue (getProp m.props ownerPk)))
    let m2 ← setRelationPV ⟨r.modelKey, r.foreignKey⟩ m (.models filtered)
    let ms2 ← toManySetRelations ownerPk r loaded ms
    .ok (m2 :: ms2)

/-- Embedding of `ToMany.load`: de-duplicate the owners' primary keys; an
empty id set short-circuits with no query; otherwise one select constrained
to the id set is issued and the targets are distributed per owner. -/
def ToMany.load (ownerPk : String) (db : String × List JVal → List MTarget) (r : ToManyRel)
    (models : List MInst) : List (String × List JVal) × Except String (List MInst) :=
  let ids := uniqueArray (models.map (fun m => pvAsValue (getProp m.props ownerPk)))
  if ids.length = 0 then
    ([], toManySetRelations ownerPk r [] models)
  else
    let q := (SQueryVal.whereVal { table := r.table }
        (Where.whereEq (.plain r.foreignKey) .Equal (.value (.arr ids)))).getSQL
    (q :: [], toManySetRelations ownerPk r (db q) models)

/-! ## Many-to-many relation (src/classes/ManyToManyRelation.ts) -/

/-- Capitalize the first character (`charAt(0).toUpperCase() +
substring(1)`). -/
def capitalizeFirst (s : String) : String :=
  match s.data with
  | [] => ""
  | c :: cs => String.mk (c.toUpper :: cs)

/-- Embedding of a `ManyToManyRelation` descriptor: the mapped key, both
model classes' tables and primary names, whether both sides are the same
class, and the optional sort. -/
structure ManyToManyRelation where
  modelKey : String
  tableA : String
  tableB : String
  primaryAName : String
  primaryBName : String
  sameModel : Bool := false
  sortKey : Option String := none
  sortOrder : String := "ASC"

/-- Embedding of the `linkTable` getter: underscore plus both table names
sorted and joined by an underscore. -/
def ManyToManyRelation.linkTable (r : ManyToManyRelation) : String :=
  "_" ++ (if r.tableA ≤ r.tableB then r.tableA ++ "_" ++ r.tableB else r.tableB ++ "_" ++ r.tableA)

/-- Embedding of the `linkKeyA` getter. -/
def ManyToManyRelation.linkKeyA (r : ManyToManyRelation) : String :=
  r.tableA ++ capitalizeFirst r.primaryAName ++ (if r.sameModel then "A" else "")

/-- Embedding of the `linkKeyB` getter. -/
def ManyToManyRelation.linkKeyB (r : ManyToManyRelation) : String :=
  r.tableB ++ capitalizeFirst r.primaryBName ++ (if r.sameModel then "B" else "")

/-- Embedding of `ManyToManyRelation.isLoaded`:
`Array.isArray(model[this.modelKey])`. -/
def ManyToManyRelation.isLoaded (r : ManyToManyRelation) (m : MInst) : Bool :=
  pvIsArray (getProp m.props r.modelKey)

/-- Embedding of `ManyToManyRelation.linkIds`: every link-table value list
must match the number of linked models; the INSERT's affected-row count is
the storage collaborator's reply. -/
def ManyToManyRelation.linkIds (db : DBResult) (bIds : List JVal)
    (linkTableValues : Option (List (String × List JVal))) : Except String Nat :=
  match linkTableValues with
  | some kvs =>
    match kvs.find? (fun kv => kv.2.length ≠ bIds.length) with
    | some kv =>
      .error ("Amount of link table values for key " ++ kv.1
        ++ " are not equal to amount of models linked")
    | none => .ok db.affectedRows
  | none => .ok db.affectedRows

/-- The `modelsB.map(...)` argument of `link`: collect every target's
primary key, throwing on the first target that is not saved yet. -/
def collectLinkIds : List MTarget → Except String (List JVal)
  | [] => .ok []
  | t :: ts =>
    if !t.getPrimaryKey.truthy then
      .error "Cannot link to a model that is not saved yet"
    else do
      let rest ← collectLinkIds ts
      .ok (t.getPrimaryKey :: rest)

/-- Embedding of `ManyToManyRelation.link`: both sides must be persisted
(truthy primary keys); the junction INSERT is issued; if the relation is
loaded on the owner, an affected-row count equal to the number of targets
appends them to the in-memory list, and any mismatch raises the
fallback-not-implemented error instead of touching the list. -/
def ManyToManyRelation.link (db : DBResult) (r : ManyToManyRelation) (mA : MInst)
    (msB : List MTarget) (linkTableValues : Option (List (String × List JVal))) :
    Except String MInst := do
  let aId := pvAsValue (getProp mA.props r.primaryAName)
  if !aId.truthy then
    .error "Cannot link if model is not saved yet"
  else do
    let bIds ← collectLinkIds msB
    let affectedRows ← ManyToManyRelation.linkIds db bIds linkTableValues
    if r.isLoaded mA then
      if affectedRows = msB.length then
        match getProp mA.props r.modelKey with
        | .models arr => .ok { mA with props := setProp mA.props r.modelKey (.models (arr ++ msB)) }
        | _ => .error "non-model array relation value (outside the modelled JS domain)"
      else
        .error "Fallback behaviour net yet implemented"
    else
      .ok mA

/-- JS `array.includes(x)` over values (strict equality). -/
def jsIncludes (l : List JVal) (x : JVal) : Bool :=
  l.any (fun y => scalarEq y x)

/-- Embedding of `ManyToManyRelation.unlink`: the junction DELETE is
issued; if the relation is loaded on the owner, an affected-row count equal
to the number of targets filters them out of the in-memory list (via
`setManyRelation`), and any mismatch raises the fallback-not-implemented
error instead of touching the list. -/
def ManyToManyRelation.unlink (db : DBResult) (r : ManyToManyRelation) (mA : MInst)
    (msB : List MTarget) : Except String MInst :=
  if r.isLoaded mA then
    if db.affectedRows = msB.length then
      match getProp mA.props r.modelKey with
      | .models arr =>
        let idMap := msB.map MTarget.getPrimaryKey
        Model.setManyRelation r.modelKey mA
          (arr.filter (fun t => !(jsIncludes idMap t.getPrimaryKey)))
      | _ => .error "non-model array relation value (outside the modelled JS domain)"
    else
      .error "Fallback behaviour net yet implemented"
  else
    .ok mA

/-! ## Concrete instances for the round-trip claim -/

/-- Concrete integer-primary column for the C1 round-trip instances. -/
def c1IdColumn : Column := { name := "id", type := .integer, primary := true }

/-- Concrete string column for the C1 round-trip instances. -/
def c1NameColumn : Column := { name := "name", type := .string }

/-- Concrete two-column schema (integer primary `id`, string `name`). -/
def c1Schema : Schema := ⟨"dogs", some c1IdColumn, [c1IdColumn, c1NameColumn], []⟩

/-- A database row with a truthy primary key. -/
def c1Row : List (String × JVal) := [("id", .num 5), ("name", .str "x")]

/-- The instance `fromRow` builds from `c1Row`. -/
def c1Inst : MInst :=
  ⟨true, [("name", .v (.str "x")), ("id", .v (.num 5))], [("id", .num 5), ("name", .str "x")], []⟩

/-- A database row whose primary-key cell is the falsy number `0`. -/
def c1ZeroRow : List (String × JVal) := [("id", .num 0), ("name", .str "x")]

/-- The instance `fromRow` builds from `c1ZeroRow`. -/
def c1ZeroInst : MInst :=
  ⟨true, [("name", .v (.str "x")), ("id", .v (.num 0))], [("id", .num 0), ("name", .str "x")], []⟩

/-! ## Basic lemmas about the sign and the property store -/

theorem WhereSign.invert_invert : ∀ s : WhereSign, s.invert.invert = s
  | .Equal => rfl
  | .NotEqual => rfl

/-! ## Claim C3 -/

/-- C3: for every filter leaf, an equal sign with value `null` compiles to
`IS NULL` with no parameter, a not-equal sign with value `null` to
`IS NOT NULL` with no parameter, and a list value to `IN (?)` (equal) or
`NOT IN (?)` (not-equal) with the whole list as the single parameter; the
legacy `Model.buildWhereOperator` agrees on its `=`/`!=` null cases and on
its `IN` sign for null-free lists. -/
theorem C3_filter_leaf_null_and_list (c : ColSel) (dflt : Option String) (vs : List JVal)
    (table key : String) (hvs : JVal.null ∉ vs) :
    Where.getSQL (.whereEq c .Equal (.value .null)) dflt
      = (columnToString c dflt ++ " IS NULL", []) ∧
    Where.getSQL (.whereEq c .NotEqual (.value .null)) dflt
      = (columnToString c dflt ++ " IS NOT NULL", []) ∧
    Where.getSQL (.whereEq c .Equal (.value (.arr vs))) dflt
      = (columnToString c dflt ++ " IN (?)", [.arr vs]) ∧
    Where.getSQL (.whereEq c .NotEqual (.value (.arr vs))) dflt
      = (columnToString c dflt ++ " NOT IN (?)", [.arr vs]) ∧
    buildWhereOperator table key "=" .null none
      = .ok (("`" ++ table ++ "`.`" ++ key ++ "`") ++ " IS NULL", []) ∧
    buildWhereOperator table key "!=" .null none
      = .ok (("`" ++ table ++ "`.`" ++ key ++ "`") ++ " IS NOT NULL", []) ∧
    buildWhereOperator table key "IN" (.arr vs) none
      = .ok (("`" ++ table ++ "`.`" ++ key ++ "`") ++ " IN (?)", [.arr vs]) := by
  have hc : vs.contains JVal.null = false := by simpa using hvs
  refine ⟨?_, ?_, rfl, rfl, rfl, rfl, ?_⟩
  · simp only [Where.getSQL, whereEqualSQL, String.append_assoc]
    rfl
  · simp only [Where.getSQL, whereEqualSQL, String.append_assoc]
    rfl
  · simp only [buildWhereOperator, hc]
    rfl

/-- Witness for C3 at a concrete leaf. -/
theorem C3_filter_leaf_null_and_list_witness :
    Where.getSQL (.whereEq (.plain "name") .NotEqual (.value (.arr [.str "a", .str "b"])))
        (some "dogs")
      = ("`dogs`.`name` NOT IN (?)", [.arr [.str "a", .str "b"]]) ∧
    buildWhereOperator "dogs" "name" "IN" (.arr [.str "a", .str "b"]) none
      = .ok ("`dogs`.`name` IN (?)", [.arr [.str "a", .str "b"]]) := by
  have h := C3_filter_leaf_null_and_list (.plain "name") (some "dogs")
    [.str "a", .str "b"] "dogs" "name" (by decide)
  exact ⟨h.2.2.2.1, h.2.2.2.2.2.2⟩

/-! ## Claim C4 -/

/-- C4 counterexample: a `WhereEqual` leaf whose list value contains a
`null` compiles to plain `IN (?)` with the full list (the `null` included)
as the parameter — not to the claimed `(col = ? OR col IS NULL)` rewriting,
which only the legacy `Model.buildWhereOperator` performs. -/
theorem C4_counterexample :
    Where.getSQL (.whereEq (.plain "name") .Equal (.value (.arr [.str "a", .null]))) (some "dogs")
      = ("`dogs`.`name` IN (?)", [.arr [.str "a", .null]]) ∧
    Where.getSQL (.whereEq (.plain "name") .Equal (.value (.arr [.str "a", .null]))) (some "dogs")
      ≠ ("(`dogs`.`name` = ? OR `dogs`.`name` IS NULL)", [.str "a"]) := by
  constructor
  · rfl
  · decide

/-- C4 (amended): the null-in-list rewriting belongs to the legacy
`Model.buildWhereOperator` `IN` sign — one non-null remainder compiles to
`(col = ? OR col IS NULL)`, several to `(col IN (?) OR col IS NULL)`, an
empty remainder to plain `IS NULL` — while a query-builder (`WhereEqual`)
list leaf always compiles to `IN (?)` / `NOT IN (?)` with the whole list as
the single parameter, nulls included. -/
theorem C4_null_in_list_rewriting (table key : String) (vs : List JVal) (x y z : JVal)
    (rest : List JVal) (c : ColSel) (dflt : Option String) (hmem : JVal.null ∈ vs) :
    (vs.filter (fun v => v ≠ .null) = [] →
      buildWhereOperator table key "IN" (.arr vs) none
        = .ok (("`" ++ table ++ "`.`" ++ key ++ "`") ++ " IS NULL", [])) ∧
    (vs.filter (fun v => v ≠ .null) = [x] →
      buildWhereOperator table key "IN" (.arr vs) none
        = .ok ("(" ++ ("`" ++ table ++ "`.`" ++ key ++ "`") ++ " = ? OR "
               ++ ("`" ++ table ++ "`.`" ++ key ++ "`") ++ " IS NULL)", [x])) ∧
    (vs.filter (fun v => v ≠ .null) = y :: z :: rest →
      buildWhereOperator table key "IN" (.arr vs) none
        = .ok ("(" ++ ("`" ++ table ++ "`.`" ++ key ++ "`") ++ " IN (?) OR "
               ++ ("`" ++ table ++ "`.`" ++ key ++ "`") ++ " IS NULL)",
               [.arr (y :: z :: rest)])) ∧
    Where.getSQL (.whereEq c .NotEqual (.value (.arr vs))) dflt
      = (columnToString c dflt ++ " NOT IN (?)", [.arr vs]) := by
  have hc : vs.contains JVal.null = true := by simpa using hmem
  refine ⟨?_, ?_, ?_, rfl⟩
  · intro hf
    simp only [buildWhereOperator, hc, hf]
    rfl
  · intro hf
    simp only [buildWhereOperator, hc, hf]
    rfl
  · intro hf
    simp only [buildWhereOperator, hc, hf]
    rfl

/-- Witness for C4 (amended) at concrete lists. -/
theorem C4_null_in_list_rewriting_witness :
    buildWhereOperator "dogs" "name" "IN" (.arr [.str "a", .null]) none
      = .ok ("(`dogs`.`name` = ? OR `dogs`.`name` IS NULL)", [.str "a"]) ∧
    buildWhereOperator "dogs" "name" "IN" (.arr [.null]) none
      = .ok ("`dogs`.`name` IS NULL", []) ∧
    buildWhereOperator "dogs" "name" "IN" (.arr [.str "a", .null, .str "b"]) none
      = .ok ("(`dogs`.`name` IN (?) OR `dogs`.`name` IS NULL)", [.arr [.str "a", .str "b"]]) := by
  refine ⟨?_, ?_, ?_⟩
  · exact (C4_null_in_list_rewriting "dogs" "name" [.str "a", .null] (.str "a") .null .null []
      (.plain "name") none (by decide)).2.1 (by decide)
  · exact (C4_null_in_list_rewriting "dogs" "name" [.null] .null .null .null []
      (.plain "name") none (by decide)).1 (by decide)
  · exact (C4_null_in_list_rewriting "dogs" "name" [.str "a", .null, .str "b"] .null
      (.str "a") (.str "b") [] (.plain "name") none (by decide)).2.2.1 (by decide)

/-! ## Claim C5 -/

/-- C5 counterexample: for the sign-invertible leaf `x` =
`WhereEqual('name', Equal, 'value')`, the syntactically nested double
negation `WhereNot(WhereNot(x))` compiles to `NOT (...)` around the
sign-inverted leaf — not to the same fragment as `x` alone (the one-level
optimization only fires when the direct operand is a `WhereEqual`). -/
theorem C5_counterexample :
    Where.getSQL (.whereNot (.whereNot (.whereEq (.plain "name") .Equal (.value (.str "value")))))
        (some "dogs")
      = ("NOT (`dogs`.`name` != ?)", [.str "value"]) ∧
    Where.getSQL (.whereEq (.plain "name") .Equal (.value (.str "value"))) (some "dogs")
      = ("`dogs`.`name` = ?", [.str "value"]) ∧
    Where.getSQL (.whereNot (.whereNot (.whereEq (.plain "name") .Equal (.value (.str "value")))))
        (some "dogs")
      ≠ Where.getSQL (.whereEq (.plain "name") .Equal (.value (.str "value"))) (some "dogs") := by
  refine ⟨rfl, rfl, by decide⟩

/-- C5 (amended): negation of a sign-invertible leaf compiles to the
sign-inverted leaf without a `NOT (...)` wrapper; negation of a compound
filter wraps it in `NOT (...)`; and since sign inversion is an involution,
`not` applied to the sign-inverted leaf compiles to exactly the same SQL
fragment and parameter list as the original leaf — whereas a syntactically
nested `not(not(x))` keeps one `NOT (...)` wrapper around the sign-inverted
leaf. -/
theorem C5_not_leaf_optimization (c : ColSel) (s : WhereSign) (v : CV) (a b : Where)
    (dflt : Option String) :
    Where.getSQL (.whereNot (.whereEq c s v)) dflt
      = Where.getSQL (.whereEq c s.invert v) dflt ∧
    Where.getSQL (.whereNot (.whereAnd a b)) dflt
      = ("NOT (" ++ (Where.getSQL (.whereAnd a b) dflt).1 ++ ")",
         (Where.getSQL (.whereAnd a b) dflt).2) ∧
    Where.getSQL (.whereNot (.whereOr a b)) dflt
      = ("NOT (" ++ (Where.getSQL (.whereOr a b) dflt).1 ++ ")",
         (Where.getSQL (.whereOr a b) dflt).2) ∧
    Where.getSQL (.whereNot (.whereEq c s.invert v)) dflt
      = Where.getSQL (.whereEq c s v) dflt ∧
    Where.getSQL (.whereNot (.whereNot (.whereEq c s v))) dflt
      = ("NOT (" ++ (Where.getSQL (.whereEq c s.invert v) dflt).1 ++ ")",
         (Where.getSQL (.whereEq c s.invert v) dflt).2) := by
  refine ⟨rfl, rfl, rfl, ?_, rfl⟩
  show whereEqualSQL c s.invert.invert v dflt = _
  rw [WhereSign.invert_invert]
  rfl

/-! ## Claim C9 -/

/-- C9 counterexample: on an instance whose multi-valued mapped property is
present but `null`, `OneToManyRelation.isLoaded` returns `false` — so
`isLoaded` is not equivalent to "the mapped property is present". -/
theorem C9_counterexample :
    OneToManyRelation.isLoaded "children"
        { props := [("children", .v .null)] } = false ∧
    getProp ({ props := [("children", .v .null)] } : MInst).props "children" ≠ .v .undef := by
  constructor
  · rfl
  · decide

/-- C9 (amended): for single-valued relations, `isLoaded` holds iff the
mapped property is present (not `undefined`) and `isSet` additionally
requires it to be non-`null`; for multi-valued relations (one-to-many and
many-to-many), `isLoaded` holds iff the mapped property currently holds an
array, so a present but `null` (or other non-array) property counts as not
loaded, and no `isSet` predicate exists. -/
theorem C9_isLoaded_isSet (r : MTORel) (mk : String) (mtm : ManyToManyRelation) (m : MInst) :
    (r.isLoaded m = true ↔ getProp m.props r.modelKey ≠ .v .undef) ∧
    (r.isSet m = true ↔
      (getProp m.props r.modelKey ≠ .v .undef ∧ getProp m.props r.modelKey ≠ .v .null)) ∧
    (OneToManyRelation.isLoaded mk m = true ↔
      ((∃ ts, getProp m.props mk = PV.models ts) ∨ (∃ vs, getProp m.props mk = PV.v (.arr vs)))) ∧
    (mtm.isLoaded m = true ↔
      ((∃ ts, getProp m.props mtm.modelKey = PV.models ts) ∨
       (∃ vs, getProp m.props mtm.modelKey = PV.v (.arr vs)))) := by
  refine ⟨?_, ?_, ?_, ?_⟩
  · simp [MTORel.isLoaded]
  · simp [MTORel.isSet]
  · unfold OneToManyRelation.isLoaded
    cases h : getProp m.props mk with
    | v x => cases x <;> simp [pvIsArray]
    | model t => simp [pvIsArray]
    | models ts => simp [pvIsArray]
  · unfold ManyToManyRelation.isLoaded
    cases h : getProp m.props mtm.modelKey with
    | v x => cases x <;> simp [pvIsArray]
    | model t => simp [pvIsArray]
    | models ts => simp [pvIsArray]

/-! ## Lemmas about the property store -/

theorem lookup_cons_self {α : Type} (a : String) (b : α) (rest : List (String × α)) :
    ((a, b) :: rest).lookup a = some b := by
  simp [List.lookup]

theorem lookup_cons_ne {α : Type} (a k' : String) (b : α) (rest : List (String × α))
    (h : k' ≠ a) : ((a, b) :: rest).lookup k' = rest.lookup k' := by
  have hb : (k' == a) = false := by simpa using h
  simp [List.lookup, hb]

theorem lookup_eraseP_ne {α : Type} :
    ∀ (props : List (String × α)) (k k' : String), k' ≠ k →
      (props.eraseP (fun p => p.1 == k)).lookup k' = props.lookup k'
  | [], _, _, _ => rfl
  | (a, b) :: rest, k, k', h => by
    by_cases hak : a = k
    · subst hak
      rw [List.eraseP_cons_of_pos (by simp)]
      rw [lookup_cons_ne a k' b rest h]
    · rw [List.eraseP_cons_of_neg (by simpa using hak)]
      by_cases hk' : k' = a
      · subst hk'
        rw [lookup_cons_self, lookup_cons_self]
      · rw [lookup_cons_ne a k' b _ hk', lookup_cons_ne a k' b rest hk']
        exact lookup_eraseP_ne rest k k' h

theorem getProp_setProp_self (props : List (String × PV)) (k : String) (x : PV) :
    getProp (setProp props k x) k = x := by
  simp [getProp, setProp, lookup_cons_self]

theorem getProp_setProp_ne (props : List (String × PV)) (k k' : String) (x : PV)
    (h : k' ≠ k) : getProp (setProp props k x) k' = getProp props k' := by
  simp only [getProp, setProp]
  rw [lookup_cons_ne k k' x _ h]
  rw [lookup_eraseP_ne props k k' h]

theorem lookup_map_replace_self (k : String) (x : JVal) :
    ∀ l : List (String × JVal), l.any (fun p => p.1 == k) = true →
      (l.map (fun p => if p.1 == k then (k, x) else p)).lookup k = some x
  | [], h => by simp at h
  | (a, b) :: rest, h => by
    by_cases hak : a = k
    · subst hak
      simp only [List.map_cons, beq_self_eq_true, if_true]
      rw [lookup_cons_self]
    · have h1 : ((a, b).1 == k) = false := by simpa using hak
      simp only [List.any_cons, h1, Bool.false_or] at h
      simp only [List.map_cons, h1, Bool.false_eq_true, if_false]
      rw [lookup_cons_ne a k b _ (Ne.symm hak)]
      exact lookup_map_replace_self k x rest h

theorem lookup_map_replace_ne (k k' : String) (x : JVal) (h : k' ≠ k) :
    ∀ l : List (String × JVal),
      (l.map (fun p => if p.1 == k then (k, x) else p)).lookup k' = l.lookup k'
  | [] => rfl
  | (a, b) :: rest => by
    by_cases hak : a = k
    · subst hak
      simp only [List.map_cons, beq_self_eq_true, if_true]
      rw [lookup_cons_ne a k' x _ h, lookup_cons_ne a k' b rest h]
      exact lookup_map_replace_ne a k' x h rest
    · have h1 : ((a, b).1 == k) = false := by simpa using hak
      simp only [List.map_cons, h1, Bool.false_eq_true, if_false]
      by_cases hk' : k' = a
      · subst hk'
        rw [lookup_cons_self, lookup_cons_self]
      · rw [lookup_cons_ne a k' b _ hk', lookup_cons_ne a k' b rest hk']
        exact lookup_map_replace_ne k k' x h rest

theorem lookup_append_single_self (k : String) (x : JVal) :
    ∀ l : List (String × JVal), l.any (fun p => p.1 == k) = false →
      (l ++ [(k, x)]).lookup k = some x
  | [], _ => by
    rw [List.nil_append]
    exact lookup_cons_self k x []
  | (a, b) :: rest, h => by
    simp only [List.any_cons, Bool.or_eq_false_iff] at h
    have hak : ¬ a = k := by simpa using h.1
    simp only [List.cons_append]
    rw [lookup_cons_ne a k b _ (Ne.symm hak)]
    exact lookup_append_single_self k x rest h.2

theorem lookup_append_single_ne (k k' : String) (x : JVal) (h : k' ≠ k) :
    ∀ l : List (String × JVal), (l ++ [(k, x)]).lookup k' = l.lookup k'
  | [] => by
    simpa using lookup_cons_ne k k' x [] h
  | (a, b) :: rest => by
    simp only [List.cons_append]
    by_cases hk' : k' = a
    · subst hk'
      rw [lookup_cons_self, lookup_cons_self]
    · rw [lookup_cons_ne a k' b _ hk', lookup_cons_ne a k' b rest hk']
      exact lookup_append_single_ne k k' x h rest

theorem lookup_objSet_self (l : List (String × JVal)) (k : String) (x : JVal) :
    (objSet l k x).lookup k = some x := by
  unfold objSet
  by_cases h : l.any (fun p => p.1 == k)
  · rw [if_pos h]
    exact lookup_map_replace_self k x l h
  · rw [if_neg h]
    have hfalse : l.any (fun p => p.1 == k) = false := by
      cases hb : l.any (fun p => p.1 == k)
      · rfl
      · exact absurd hb h
    exact lookup_append_single_self k x l hfalse

theorem lookup_objSet_ne (l : List (String × JVal)) (k k' : String) (x : JVal) (h : k' ≠ k) :
    (objSet l k x).lookup k' = l.lookup k' := by
  unfold objSet
  by_cases hany : l.any (fun p => p.1 == k)
  · rw [if_pos hany]
    exact lookup_map_replace_ne k k' x h l
  · rw [if_neg hany]
    exact lookup_append_single_ne k k' x h l

/-! ## Claim C10 -/

/-- C10: `setRelation`, `setOptionalRelation` with a non-null target, and
`setManyRelation` throw at set time when a given target does not yet exist
in the database (the thrown error carries no updated instance, so the
owner's relation property and foreign-key column are unchanged); on success
the mapped property is assigned, and the single-valued setters also set the
owner's foreign-key column to the target's primary key (or to `null` for a
`null` target). -/
theorem C10_set_relation_guards (r : MTORel) (m : MInst) (mk : String) (t : MTarget)
    (ts : List MTarget) (hkeys : r.modelKey ≠ r.foreignKey) :
    (t.existsInDatabase = false →
      Model.setRelation r m t
        = .error "You cannot set a relation to a model that are not yet saved in the database." ∧
      Model.setOptionalRelation r m (some t)
        = .error "You cannot set a relation to a model that are not yet saved in the database.") ∧
    ((∃ u ∈ ts, u.existsInDatabase = false) →
      Model.setManyRelation mk m ts
        = .error "You cannot set a relation to models that are not yet saved in the database.") ∧
    (t.existsInDatabase = true →
      ∃ m2, Model.setRelation r m t = .ok m2 ∧
        getProp m2.props r.modelKey = .model t ∧
        getProp m2.props r.foreignKey = .v t.getPrimaryKey) ∧
    (t.existsInDatabase = true →
      ∃ m2, Model.setOptionalRelation r m (some t) = .ok m2 ∧
        getProp m2.props r.modelKey = .model t ∧
        getProp m2.props r.foreignKey = .v t.getPrimaryKey) ∧
    (∃ m2, Model.setOptionalRelation r m none = .ok m2 ∧
      getProp m2.props r.modelKey = .v .null ∧
      getProp m2.props r.foreignKey = .v .null) ∧
    ((∀ u ∈ ts, u.existsInDatabase = true) →
      ∃ m2, Model.setManyRelation mk m ts = .ok m2 ∧
        getProp m2.props mk = .models ts) := by
  refine ⟨?_, ?_, ?_, ?_, ?_, ?_⟩
  · intro hbad
    constructor
    · simp [Model.setRelation, setRelationPV, hbad]
    · simp [Model.setOptionalRelation, hbad]
  · intro hbad
    obtain ⟨u, hu, hue⟩ := hbad
    have : ts.any (fun t => !t.existsInDatabase) = true := by
      simp only [List.any_eq_true]
      exact ⟨u, hu, by simp [hue]⟩
    simp [Model.setManyRelation, this]
  · intro hgood
    refine ⟨{ m with props := setProp (setProp m.props r.modelKey (.model t)) r.foreignKey (.v t.getPrimaryKey) },
      by simp [Model.setRelation, setRelationPV, hgood], ?_, ?_⟩
    · rw [getProp_setProp_ne _ _ _ _ hkeys, getProp_setProp_self]
    · rw [getProp_setProp_self]
  · intro hgood
    refine ⟨{ m with props := setProp (setProp m.props r.modelKey (.model t)) r.foreignKey (.v t.getPrimaryKey) },
      by simp [Model.setOptionalRelation, hgood], ?_, ?_⟩
    · rw [getProp_setProp_ne _ _ _ _ hkeys, getProp_setProp_self]
    · rw [getProp_setProp_self]
  · refine ⟨{ m with props := setProp (setProp m.props r.modelKey (.v .null)) r.foreignKey (.v .null) },
      by simp [Model.setOptionalRelation], ?_, ?_⟩
    · rw [getProp_setProp_ne _ _ _ _ hkeys, getProp_setProp_self]
    · rw [getProp_setProp_self]
  · intro hgood
    have : ts.any (fun t => !t.existsInDatabase) = false := by
      simp only [List.any_eq_false]
      intro u hu
      simp [hgood u hu]
    refine ⟨{ m with props := setProp m.props mk (.models ts) },
      by simp [Model.setManyRelation, this], ?_⟩
    rw [getProp_setProp_self]

/-- Witness for C10 at concrete targets. -/
theorem C10_set_relation_guards_witness :
    Model.setRelation ⟨"parent", "parentId"⟩ {}
        { existsInDatabase := false, primaryName := "id", props := [] }
      = .error "You cannot set a relation to a model that are not yet saved in the database." ∧
    (∃ m2, Model.setRelation ⟨"parent", "parentId"⟩ {}
        { existsInDatabase := true, primaryName := "id", props := [("id", .num 7)] } = .ok m2 ∧
      getProp m2.props "parent"
        = .model { existsInDatabase := true, primaryName := "id", props := [("id", .num 7)] } ∧
      getProp m2.props "parentId" = .v (.num 7)) := by
  have hbad := (C10_set_relation_guards ⟨"parent", "parentId"⟩ {} "friends"
    { existsInDatabase := false, primaryName := "id", props := [] } [] (by decide)).1 rfl
  have hgood := (C10_set_relation_guards ⟨"parent", "parentId"⟩ {} "friends"
    { existsInDatabase := true, primaryName := "id", props := [("id", .num 7)] } []
    (by decide)).2.2.1 rfl
  exact ⟨hbad.1, hgood⟩

/-! ## Claim C8 -/

theorem collectLinkIds_ok (msB : List MTarget) (h : ∀ t ∈ msB, t.getPrimaryKey.truthy = true) :
    collectLinkIds msB = .ok (msB.map MTarget.getPrimaryKey) := by
  induction msB with
  | nil => rfl
  | cons t ts ih =>
    have ht : t.getPrimaryKey.truthy = true := h t (by simp)
    simp only [collectLinkIds, ht, Bool.not_true, Bool.false_eq_true, if_false]
    rw [ih (fun u hu => h u (by simp [hu]))]
    rfl

/-- C8: a many-to-many `link` or `unlink` performed while the relation is
loaded on the owner raises the fallback-not-implemented error — without
touching the in-memory relation list (the error carries no updated
instance) — whenever the affected-row count reported by storage differs
from the number of target entities passed. -/
theorem C8_link_unlink_mismatch (db : DBResult) (r : ManyToManyRelation) (mA : MInst)
    (msB : List MTarget) (arr : List MTarget)
    (hpk : (pvAsValue (getProp mA.props r.primaryAName)).truthy = true)
    (hbpk : ∀ t ∈ msB, t.getPrimaryKey.truthy = true)
    (hloaded : getProp mA.props r.modelKey = .models arr)
    (hmm : db.affectedRows ≠ msB.length) :
    r.link db mA msB none = .error "Fallback behaviour net yet implemented" ∧
    r.unlink db mA msB = .error "Fallback behaviour net yet implemented" := by
  have hload : r.isLoaded mA = true := by
    simp [ManyToManyRelation.isLoaded, hloaded, pvIsArray]
  constructor
  · simp only [ManyToManyRelation.link, hpk, Bool.not_true, Bool.false_eq_true, if_false,
      collectLinkIds_ok msB hbpk, ManyToManyRelation.linkIds, hload, if_true]
    exact if_neg hmm
  · simp [ManyToManyRelation.unlink, hload, hmm]

/-! ## Claim C6 -/

theorem cellGet_append {α : Type} (cells : List (List α)) (x : List α) (i : Nat)
    (h : i < cells.length) : cellGet (cells ++ [x]) i = cellGet cells i := by
  unfold cellGet
  rw [List.getD_append _ _ _ _ h]

theorem cellGet_set_ne {α : Type} (cells : List (List α)) (j : Nat) (x : List α) (i : Nat)
    (h : i ≠ j) : cellGet (cells.set j x) i = cellGet cells i := by
  unfold cellGet
  simp [List.getD]
  rw [List.getElem?_set_ne (by omega)]

/-- The copy-on-write contract of one builder call: the returned query is a
fresh object (it references newly allocated array cells) and the original
query object still denotes exactly the value it denoted before the call. -/
def freshAndPreserving (h : QHeap) (q : QueryObj) (res : QHeap × QueryObj) : Prop :=
  res.2.joinRef = h.joinCells.length ∧
  res.2.hookRef = h.hookCells.length ∧
  QueryObj.view res.1 q = q.view h

theorem view_clone_preserved (h : QHeap) (q : QueryObj)
    (hj : q.joinRef < h.joinCells.length) (hh : q.hookRef < h.hookCells.length) :
    QueryObj.view (q.clone h).1 q = q.view h := by
  unfold QueryObj.view QueryObj.clone
  rw [cellGet_append _ _ _ hj, cellGet_append _ _ _ hh]

theorem view_pushHook (hp : QHeap) (i tok : Nat) (q0 : QueryObj) (hne : q0.hookRef ≠ i) :
    QueryObj.view
        { hp with hookCells := hp.hookCells.set i (cellGet hp.hookCells i ++ [tok]) } q0
      = QueryObj.view hp q0 := by
  unfold QueryObj.view
  simp only
  rw [cellGet_set_ne _ _ _ _ hne]

/-- C6: every mutating builder method — `where`/`andWhere`/`orWhere`, their
`Not` variants, `join`/`leftJoin`/`rightJoin` (one operation covering all
three join kinds), `limit`, and `with` for both relation shapes — returns a
new query object backed by freshly allocated `_join`/`postFetch` cells, and
after the call the original query still denotes its previous filter tree,
join list, limit and post-fetch hook list. -/
theorem C6_builder_copy_on_write (h : QHeap) (q : QueryObj) (w : Where) (j : JoinItem)
    (l : Int) (off : Option Int) (tt tp fk : String) (opt : Bool) (hk : Nat)
    (hj : q.joinRef < h.joinCells.length) (hh : q.hookRef < h.hookCells.length) :
    freshAndPreserving h q (q.whereOp h w) ∧
    freshAndPreserving h q (q.orWhereOp h w) ∧
    freshAndPreserving h q (q.whereNotOp h w) ∧
    freshAndPreserving h q (q.orWhereNotOp h w) ∧
    freshAndPreserving h q (q.joinOp h j) ∧
    freshAndPreserving h q (q.limitOp h l off) ∧
    freshAndPreserving h q (q.withToOneOp h tt tp fk opt hk) ∧
    freshAndPreserving h q (q.withToManyOp h hk) := by
  have hview := view_clone_preserved h q hj hh
  have hjoinAll : ∀ j' : JoinItem, freshAndPreserving h q (q.joinOp h j') := by
    intro j'
    refine ⟨rfl, rfl, ?_⟩
    unfold QueryObj.joinOp
    unfold QueryObj.view
    unfold QueryObj.view QueryObj.clone at hview
    simp only [QueryObj.clone]
    rw [cellGet_set_ne _ _ _ _ (Nat.ne_of_lt hj)]
    exact hview
  have hwhere : ∀ w' : Where, freshAndPreserving h q (q.whereOp h w') := by
    intro w'
    refine ⟨?_, ?_, ?_⟩
    · unfold QueryObj.whereOp
      simp only [QueryObj.clone]
      cases q.whereW <;> rfl
    · unfold QueryObj.whereOp
      simp only [QueryObj.clone]
      cases q.whereW <;> rfl
    · unfold QueryObj.whereOp
      simp only [QueryObj.clone]
      cases hq : q.whereW
      · exact hview
      · exact hview
  have horwhere : ∀ w' : Where, freshAndPreserving h q (q.orWhereOp h w') := by
    intro w'
    refine ⟨?_, ?_, ?_⟩
    · unfold QueryObj.orWhereOp
      simp only [QueryObj.clone]
      cases q.whereW <;> rfl
    · unfold QueryObj.orWhereOp
      simp only [QueryObj.clone]
      cases q.whereW <;> rfl
    · unfold QueryObj.orWhereOp
      simp only [QueryObj.clone]
      cases hq : q.whereW
      · exact hview
      · exact hview
  refine ⟨hwhere w, horwhere w, hwhere (.whereNot w), horwhere (.whereNot w), hjoinAll j,
    ⟨rfl, rfl, hview⟩, ?_, ?_⟩
  · refine ⟨rfl, rfl, ?_⟩
    exact (view_pushHook _ _ _ _ (Nat.ne_of_lt hh)).trans ((hjoinAll _).2.2)
  · refine ⟨rfl, rfl, ?_⟩
    exact (view_pushHook _ _ _ _ (Nat.ne_of_lt hh)).trans hview

/-- Witness for C6 on a concrete heap and query. -/
theorem C6_builder_copy_on_write_witness :
    freshAndPreserving { joinCells := [[]], hookCells := [[]] }
      { table := "dogs", joinRef := 0, hookRef := 0 }
      (QueryObj.whereOp { joinCells := [[]], hookCells := [[]] }
        { table := "dogs", joinRef := 0, hookRef := 0 }
        (.whereEq (.plain "name") .Equal (.value (.str "v")))) ∧
    freshAndPreserving { joinCells := [[]], hookCells := [[]] }
      { table := "dogs", joinRef := 0, hookRef := 0 }
      (QueryObj.joinOp { joinCells := [[]], hookCells := [[]] }
        { table := "dogs", joinRef := 0, hookRef := 0 } { table := "animals" }) := by
  have h := C6_builder_copy_on_write { joinCells := [[]], hookCells := [[]] }
    { table := "dogs", joinRef := 0, hookRef := 0 }
    (.whereEq (.plain "name") .Equal (.value (.str "v"))) { table := "animals" }
    1 none "animals" "id" "animal_id" false 0 (by decide) (by decide)
  exact ⟨h.1, h.2.2.2.2.1⟩

/-! ## Claim C1 -/

theorem scalarEq_self {a : JVal} (h : a.isArr = false) : scalarEq a a = true := by
  cases a <;> simp_all [scalarEq, JVal.isArr]

theorem Column.from_ok_shape {c : Column} (hb : c.beforeLoad = none) {raw v : JVal}
    (hraw : raw ≠ .undef) (hna : raw.isArr = false) (h : c.from raw = .ok v) :
    v ≠ .undef ∧ v.isArr = false := by
  rw [Column.from, hb] at h
  simp only at h
  by_cases hnull : raw = JVal.null
  · rw [if_pos hnull] at h
    by_cases hn : c.nullable
    · rw [if_pos hn] at h
      cases h
      exact ⟨by simp, rfl⟩
    · rw [if_neg hn] at h
      cases h
  · rw [if_neg hnull] at h
    cases ct : c.type <;> simp only [ct] at h
    · split at h
      · cases h
        exact ⟨hraw, hna⟩
      · cases h
    · cases h
      exact ⟨hraw, hna⟩
    · cases h
      exact ⟨hraw, hna⟩
    · split at h
      · cases h
        exact ⟨by simp, rfl⟩
      · cases h
        exact ⟨by simp, rfl⟩
      · cases h
    · cases h
      exact ⟨hraw, hna⟩
    · cases h
      exact ⟨hraw, hna⟩
    · split at h
      · cases h
        exact ⟨by simp [jsonParse], rfl⟩
      · cases h

theorem Column.to_ok_not_arr {c : Column} {x sv : JVal} (hx : x.isArr = false)
    (h : c.to x = .ok sv) : sv.isArr = false := by
  rw [Column.to] at h
  by_cases hnull : x = JVal.null
  · rw [if_pos hnull] at h
    by_cases hn : c.nullable
    · rw [if_pos hn] at h
      cases h
      rfl
    · rw [if_neg hn] at h
      cases h
  · rw [if_neg hnull] at h
    cases ct : c.type <;> simp only [ct] at h <;> cases h
    · exact hx
    · exact hx
    · exact hx
    · cases x.truthy <;> rfl
    · exact hx
    · exact hx
    · rfl


theorem exceptBind_ok {ε α β : Type} (a : α) (f : α → Except ε β) :
    (Except.ok a >>= f) = f a := rfl

theorem fromRowProps_untouched (row : List (String × JVal)) :
    ∀ (cols : List Column) (acc props : List (String × PV)),
      fromRowProps row cols acc = .ok props →
      ∀ k, (∀ c ∈ cols, c.name ≠ k) → getProp props k = getProp acc k
  | [], _, _, h, _, _ => by cases h; rfl
  | c :: cs, acc, props, h, k, hk => by
    rw [fromRowProps] at h
    have hcne : c.name ≠ k := hk c (by simp)
    have hkcs : ∀ c' ∈ cs, c'.name ≠ k := fun c' hc' => hk c' (by simp [hc'])
    split at h
    · cases hfrom : c.from (rowGet row c.name) with
      | error e => rw [hfrom] at h; cases h
      | ok v =>
        rw [hfrom] at h
        have h' : fromRowProps row cs (setProp acc c.name (.v v)) = .ok props := h
        rw [fromRowProps_untouched row cs _ props h' k hkcs,
          getProp_setProp_ne acc c.name k (.v v) (Ne.symm hcne)]
    · have h' : fromRowProps row cs (setProp acc c.name (.v .undef)) = .ok props := h
      rw [fromRowProps_untouched row cs _ props h' k hkcs,
        getProp_setProp_ne acc c.name k (.v .undef) (Ne.symm hcne)]

theorem fromRowProps_mem (row : List (String × JVal)) :
    ∀ (cols : List Column) (acc props : List (String × PV)),
      fromRowProps row cols acc = .ok props →
      (cols.map Column.name).Nodup →
      ∀ c ∈ cols,
        (rowGet row c.name = .undef ∧ getProp props c.name = .v .undef) ∨
        (∃ v, rowGet row c.name ≠ .undef ∧ c.from (rowGet row c.name) = .ok v ∧
          getProp props c.name = .v v)
  | [], _, _, _, _, c, hc => absurd hc (List.not_mem_nil c)
  | c0 :: cs, acc, props, h, hnd, c, hc => by
    rw [fromRowProps] at h
    have hnd0 : c0.name ∉ cs.map Column.name := (List.nodup_cons.mp (by simpa using hnd)).1
    have hnd' : (cs.map Column.name).Nodup := (List.nodup_cons.mp (by simpa using hnd)).2
    rcases List.mem_cons.mp hc with heq | hmem
    · subst heq
      have hknot : ∀ c' ∈ cs, c'.name ≠ c.name := fun c' hc' he =>
        hnd0 (by rw [← he]; exact List.mem_map.mpr ⟨c', hc', rfl⟩)
      split at h
      · rename_i hne
        cases hfrom : c.from (rowGet row c.name) with
        | error e => rw [hfrom] at h; cases h
        | ok v =>
          rw [hfrom] at h
          have h' : fromRowProps row cs (setProp acc c.name (.v v)) = .ok props := h
          right
          refine ⟨v, hne, rfl, ?_⟩
          rw [fromRowProps_untouched row cs _ props h' c.name hknot, getProp_setProp_self]
      · rename_i hne
        left
        have h' : fromRowProps row cs (setProp acc c.name (.v .undef)) = .ok props := h
        have hu : rowGet row c.name = .undef := by
          by_contra hcon
          exact hne hcon
        refine ⟨hu, ?_⟩
        rw [fromRowProps_untouched row cs _ props h' c.name hknot, getProp_setProp_self]
    · split at h
      · cases hfrom : c0.from (rowGet row c0.name) with
        | error e => rw [hfrom] at h; cases h
        | ok v =>
          rw [hfrom] at h
          have h' : fromRowProps row cs (setProp acc c0.name (.v v)) = .ok props := h
          exact fromRowProps_mem row cs _ props h' hnd' c hmem
      · exact fromRowProps_mem row cs _ props h hnd' c hmem

theorem markSavedColumns_untouched (props : List (String × PV))
    (fields : Option (List (String × JVal))) :
    ∀ (cols : List Column) (saved saved' : List (String × JVal)),
      markSavedColumns props fields cols saved = .ok saved' →
      ∀ k, (∀ c ∈ cols, c.name ≠ k) → saved'.lookup k = saved.lookup k
  | [], _, _, h, _, _ => by cases h; rfl
  | c :: cs, saved, saved', h, k, hk => by
    have hcne : k ≠ c.name := Ne.symm (hk c (by simp))
    have hkcs : ∀ c' ∈ cs, c'.name ≠ k := fun c' hc' => hk c' (by simp [hc'])
    cases fields with
    | some f =>
      rw [markSavedColumns] at h
      split at h
      · exact (markSavedColumns_untouched props _ cs _ saved' h k hkcs).trans
          (lookup_objSet_ne saved c.name k _ hcne)
      · exact markSavedColumns_untouched props _ cs _ saved' h k hkcs
    | none =>
      rw [markSavedColumns] at h
      split at h
      · split at h
        · rename_i x hx
          cases hto : c.to x with
          | error e => rw [hto] at h; cases h
          | ok sv =>
            rw [hto] at h
            have h' : markSavedColumns props none cs (objSet saved c.name sv) = .ok saved' := h
            exact (markSavedColumns_untouched props none cs _ saved' h' k hkcs).trans
              (lookup_objSet_ne saved c.name k sv hcne)
        · cases h
      · exact markSavedColumns_untouched props none cs saved saved' h k hkcs

theorem markSavedColumns_none_mem (props : List (String × PV)) :
    ∀ (cols : List Column) (saved saved' : List (String × JVal)),
      markSavedColumns props none cols saved = .ok saved' →
      (cols.map Column.name).Nodup →
      ∀ c ∈ cols, ∀ x : JVal, getProp props c.name = .v x → x ≠ .undef →
        ∃ sv, c.to x = .ok sv ∧ saved'.lookup c.name = some sv
  | [], _, _, _, _, c, hc, _, _, _ => absurd hc (List.not_mem_nil c)
  | c0 :: cs, saved, saved', h, hnd, c, hc, x, hx, hxu => by
    rw [markSavedColumns] at h
    have hnd0 : c0.name ∉ cs.map Column.name := (List.nodup_cons.mp (by simpa using hnd)).1
    have hnd' : (cs.map Column.name).Nodup := (List.nodup_cons.mp (by simpa using hnd)).2
    rcases List.mem_cons.mp hc with heq | hmem
    · subst heq
      have hknot : ∀ c' ∈ cs, c'.name ≠ c.name := fun c' hc' he =>
        hnd0 (by rw [← he]; exact List.mem_map.mpr ⟨c', hc', rfl⟩)
      rw [if_pos (by rw [hx]; simpa using hxu)] at h
      simp only [hx] at h
      cases hto : c.to x with
      | error e => rw [hto] at h; cases h
      | ok sv =>
        rw [hto] at h
        have h' : markSavedColumns props none cs (objSet saved c.name sv) = .ok saved' := h
        refine ⟨sv, rfl, ?_⟩
        rw [markSavedColumns_untouched props none cs _ saved' h' c.name hknot,
          lookup_objSet_self]
    · by_cases h0 : getProp props c0.name = .v .undef
      · rw [if_neg (by simp [h0])] at h
        exact markSavedColumns_none_mem props cs saved saved' h hnd' c hmem x hx hxu
      · rw [if_pos h0] at h
        cases hg : getProp props c0.name with
        | v x0 =>
          simp only [hg] at h
          cases hto : c0.to x0 with
          | error e => rw [hto] at h; cases h
          | ok sv0 =>
            rw [hto] at h
            have h' : markSavedColumns props none cs (objSet saved c0.name sv0) = .ok saved' := h
            exact markSavedColumns_none_mem props cs _ saved' h' hnd' c hmem x hx hxu
        | model t =>
          rw [hg] at h
          simp only [] at h
          cases h
        | models ts =>
          rw [hg] at h
          simp only [] at h
          cases h

theorem markSavedRelations_not_loaded (props : List (String × PV)) :
    ∀ rels : List MTORel, (∀ r ∈ rels, getProp props r.modelKey = .v .undef) →
      markSavedRelations props rels = .ok props
  | [], _ => rfl
  | r :: rs, h => by
    rw [markSavedRelations]
    rw [if_neg (by simp [h r (by simp)])]
    exact markSavedRelations_not_loaded props rs (fun r' hr' => h r' (by simp [hr']))

theorem beforeSave_none (props : List (String × PV)) :
    ∀ cols : List Column, (∀ c ∈ cols, c.beforeSave = none) →
      Model.beforeSave props cols = props
  | [], _ => rfl
  | c :: cs, h => by
    rw [Model.beforeSave, h c (by simp)]
    exact beforeSave_none props cs (fun c' hc' => h c' (by simp [hc']))

theorem checkRelations_ok (m : MInst) :
    ∀ rels : List MTORel, (∀ r ∈ rels, r.isLoaded m = false) →
      checkRelations m rels = .ok ()
  | [], _ => rfl
  | r :: rs, h => by
    rw [checkRelations, relationCheck]
    rw [if_neg (by simp [h r (by simp)])]
    exact checkRelations_ok m rs (fun r' hr' => h r' (by simp [hr']))

theorem getChangedAux_nochange (S : Schema) (m : MInst)
    (hex : m.existsInDatabase = true) (hforce : m.forceSaveProperties = []) :
    ∀ (cols : List Column) (acc : ChangedResult),
      (∀ c ∈ cols,
        getProp m.props c.name = .v .undef ∨
        ∃ x sv, getProp m.props c.name = .v x ∧ x ≠ .undef ∧ c.to x = .ok sv ∧
          m.savedProperties.lookup c.name = some sv ∧ sv.isArr = false) →
      getChangedAux S m cols acc = .ok acc
  | [], _, _ => rfl
  | c :: cs, acc, hall => by
    have ih := getChangedAux_nochange S m hex hforce cs acc
      (fun c' hc' => hall c' (by simp [hc']))
    rw [getChangedAux]
    by_cases hskip : c.primary ∧ c.type = ColumnType.integer ∧ primaryNameIs S "id"
    · rw [if_pos hskip]
      exact ih
    · rw [if_neg hskip]
      rw [if_neg (by simp [hex])]
      rcases hall c (by simp) with hundef | ⟨x, sv, hx, hxu, hto, hlk, hna⟩
      · rw [if_neg (by simp [hundef])]
        exact ih
      · rw [if_pos (by rw [hx]; simpa using hxu)]
        have hfc : m.forceSaveProperties.contains c.name = false := by rw [hforce]; rfl
        simp only [hx, hfc, hlk, hto, Column.isChanged, scalarEq_self hna, Bool.not_true,
          Bool.false_eq_true, if_false, Bool.false_or, Bool.or_false, exceptBind_ok, reduceIte]
        exact ih

/-- Claim C1 (amended): an instance reconstructed by fromRow from a row whose
primary-key cell is truthy, over a well-formed schema without pre-save or
pre-load hooks, saves as a no-op: no statement is issued, the call reports
false and the instance is unchanged. -/
theorem C1_fromRow_save_noop (db : DBResult) (S : Schema) (p : Column)
    (row : List (String × JVal)) (m : MInst)
    (hnd : (S.columns.map Column.name).Nodup)
    (htable : S.table ≠ "")
    (hprim : S.primary = some p)
    (hhooks : ∀ c ∈ S.columns, c.beforeSave = none ∧ c.beforeLoad = none)
    (hrow : ∀ c ∈ S.columns, (rowGet row c.name).isArr = false)
    (hrels : ∀ r ∈ S.relations, ∀ c ∈ S.columns, c.name ≠ r.modelKey)
    (hfr : Model.fromRow S (some row) = .ok (some m))
    (hpk : (getProp m.props p.name).truthy = true) :
    Model.save db S m = .ok ([], false, m) := by
  rw [Model.fromRow] at hfr
  by_cases hpm : primaryMissing S row = true
  · rw [if_pos hpm] at hfr
    exact Option.noConfusion (Except.ok.inj hfr)
  · rw [if_neg hpm] at hfr
    cases hprops : fromRowProps row S.columns [] with
    | error e => rw [hprops] at hfr; cases hfr
    | ok props =>
      rw [hprops] at hfr
      simp only [exceptBind_ok] at hfr
      cases hms : Model.markSaved S { existsInDatabase := false, props := props } none with
      | error e => rw [hms] at hfr; cases hfr
      | ok m0 =>
        rw [hms] at hfr
        have hm : m0 = m := Option.some.inj (Except.ok.inj hfr)
        subst hm
        simp only [Model.markSaved] at hms
        cases hmc : markSavedColumns props none S.columns [] with
        | error e => rw [hmc] at hms; cases hms
        | ok saved =>
          rw [hmc] at hms
          have hnotloaded : ∀ r ∈ S.relations, getProp props r.modelKey = .v .undef :=
            fun r hr =>
              (fromRowProps_untouched row S.columns [] props hprops r.modelKey
                (fun c hc => hrels r hr c hc)).trans rfl
          have hmr : markSavedRelations props S.relations = .ok props :=
            markSavedRelations_not_loaded props S.relations hnotloaded
          rw [hmr] at hms
          have hm0 : (⟨true, props, saved, []⟩ : MInst) = m0 := Except.ok.inj hms
          subst hm0
          have hpk' : (getProp props p.name).truthy = true := hpk
          have hcheck : checkRelations ⟨true, props, saved, []⟩ S.relations = .ok () :=
            checkRelations_ok _ S.relations (fun r hr => by
              simp [MTORel.isLoaded, hnotloaded r hr])
          have hbs : Model.beforeSave props S.columns = props :=
            beforeSave_none props S.columns (fun c hc => (hhooks c hc).1)
          have hcols : ∀ c ∈ S.columns,
              getProp props c.name = .v .undef ∨
              ∃ x sv, getProp props c.name = .v x ∧ x ≠ .undef ∧ c.to x = .ok sv ∧
                saved.lookup c.name = some sv ∧ sv.isArr = false := by
            intro c hc
            rcases fromRowProps_mem row S.columns [] props hprops hnd c hc with
              ⟨hru, hgu⟩ | ⟨v, hrne, hfrom, hgv⟩
            · exact Or.inl hgu
            · right
              have hshape := Column.from_ok_shape (hhooks c hc).2 hrne (hrow c hc) hfrom
              obtain ⟨sv, hto, hlk⟩ :=
                markSavedColumns_none_mem props S.columns [] saved hmc hnd c hc v hgv hshape.1
              exact ⟨v, sv, hgv, hshape.1, hto, hlk, Column.to_ok_not_arr hshape.2 hto⟩
          have hcr : getChangedAux S ⟨true, props, saved, []⟩ S.columns ⟨[], 0⟩ = .ok ⟨[], 0⟩ :=
            getChangedAux_nochange S ⟨true, props, saved, []⟩ rfl rfl S.columns ⟨[], 0⟩
              (fun c hc => hcols c hc)
          simp only [Model.save, Model.getChangedDatabaseProperties, hprim, hpk', hbs, hcheck,
            hcr, htable, Bool.not_true, Bool.false_eq_true, false_and, if_false, exceptBind_ok,
            reduceIte]
          rfl

/-- Witness for C1: on the concrete schema and row, `fromRow` yields
`c1Inst` and an immediate `save` issues no statement and returns `false`. -/
theorem C1_fromRow_save_noop_witness :
    Model.fromRow c1Schema (some c1Row) = .ok (some c1Inst) ∧
    Model.save {} c1Schema c1Inst = .ok ([], false, c1Inst) :=
  ⟨rfl, C1_fromRow_save_noop {} c1Schema c1IdColumn c1Row c1Inst
    (by decide) (by decide) rfl
    (by intro c hc
        simp [c1Schema, c1IdColumn, c1NameColumn] at hc
        rcases hc with h | h <;> subst h <;> exact ⟨rfl, rfl⟩)
    (by intro c hc
        simp [c1Schema, c1IdColumn, c1NameColumn] at hc
        rcases hc with h | h <;> subst h <;> rfl)
    (fun r hr => absurd hr (List.not_mem_nil r))
    rfl rfl⟩

/-- C1 counterexample: a row whose primary-key cell is `0` is accepted by
`fromRow` (the guard only rejects `null`/`undefined`), but the immediate
`save` throws — the falsy primary key is taken for a missing ID on an
instance that exists in the database — instead of performing the claimed
no-op. -/
theorem C1_counterexample :
    Model.fromRow c1Schema (some c1ZeroRow) = .ok (some c1ZeroInst) ∧
    Model.save {} c1Schema c1ZeroInst =
      .error "Model was loaded from the Database, but didn't select the ID. Saving not possible." :=
  ⟨rfl, rfl⟩

/-! ## Claim C2 -/

/-- The observable violation conditions of the relation-consistency check at
the start of `save`: the relation is loaded, and either it is set while the
referenced value is no persisted model whose primary key strictly equals
the foreign-key column, or it is cleared while the foreign-key column is
not strictly `null`. -/
def relationViolation (m : MInst) (r : MTORel) : Prop :=
  r.isLoaded m = true ∧
  ((r.isSet m = true ∧
     (match getProp m.props r.modelKey with
      | .model t =>
        t.existsInDatabase = false ∨
        pvStrictEq (getProp m.props r.foreignKey) t.getPrimaryKey = false
      | _ => True)) ∨
   (r.isSet m = false ∧ pvStrictEq (getProp m.props r.foreignKey) .null = false))

theorem relationCheck_error_of_violation (m : MInst) (r : MTORel)
    (h : relationViolation m r) : ∃ e, relationCheck m r = .error e := by
  obtain ⟨hload, hrest⟩ := h
  unfold relationCheck
  rw [if_pos hload]
  rcases hrest with ⟨hset, htarget⟩ | ⟨hnset, hfk⟩
  · rw [if_pos hset]
    cases hmk : getProp m.props r.modelKey with
    | model t =>
      rw [hmk] at htarget
      by_cases hex : t.existsInDatabase
      · have hne : pvStrictEq (getProp m.props r.foreignKey) t.getPrimaryKey = false := by
          rcases htarget with hbad | hbad
          · rw [hex] at hbad
            cases hbad
          · exact hbad
        refine ⟨"You cannot modify the value of a foreign key when the relation is loaded. Unload the relation first or modify the relation with setRelation", ?_⟩
        simp [hex, hne]
      · refine ⟨"You cannot set a relation that is not yet saved in the database.", ?_⟩
        simp [hex]
    | v x =>
      exact ⟨_, rfl⟩
    | models ts =>
      exact ⟨_, rfl⟩
  · rw [if_neg (by simp [hnset])]
    refine ⟨"You cannot set a foreign key when the relation is loaded. Unload the relation first or modify the relation with setRelation", ?_⟩
    simp [hfk]

theorem checkRelations_error (m : MInst) :
    ∀ rs : List MTORel, (∃ r ∈ rs, relationViolation m r) →
      ∃ e, checkRelations m rs = .error e
  | [], h => by
    obtain ⟨r, hr, _⟩ := h
    exact absurd hr (List.not_mem_nil r)
  | a :: rs, h => by
    obtain ⟨r, hr, hv⟩ := h
    unfold checkRelations
    cases hc : relationCheck m a with
    | error e =>
      exact ⟨e, rfl⟩
    | ok u =>
      rcases List.mem_cons.mp hr with heq | hmem
      · subst heq
        obtain ⟨e, he⟩ := relationCheck_error_of_violation m r hv
        rw [hc] at he
        cases he
      · obtain ⟨e, he⟩ := checkRelations_error m rs ⟨r, hmem, hv⟩
        exact ⟨e, he⟩

/-- C2: when `save` is called on an instance with a loaded relation in a
violating state — set but referencing a non-persisted target, set with a
foreign-key column that does not equal the target's primary key, or cleared
with a non-null foreign-key column — `save` throws.  The check runs before
the primary-key validation, the pre-save transforms, the change diff and
both write paths, so the thrown error leaves storage untouched (the result
carries no statements) and the instance unchanged. -/
theorem C2_save_relation_guard (db : DBResult) (S : Schema) (m : MInst) (r : MTORel)
    (p : Column) (htable : S.table ≠ "") (hp : S.primary = some p)
    (hr : r ∈ S.relations) (hv : relationViolation m r) :
    ∃ e, Model.save db S m = .error e := by
  obtain ⟨e, he⟩ := checkRelations_error m S.relations ⟨r, hr, hv⟩
  refine ⟨e, ?_⟩
  unfold Model.save
  rw [if_neg htable, hp]
  show (do
    let _ ← checkRelations m S.relations
    let id := getProp m.props p.name
    let _ ← (if !id.truthy then
               if m.existsInDatabase then
                 Except.error "Model was loaded from the Database, but didn't select the ID. Saving not possible."
               else .ok ()
             else
               if !m.existsInDatabase ∧ p.type = ColumnType.integer ∧ p.name = "id" then
                 Except.error "PrimaryKey was set programmatically without fetching the model from the database. This is not allowed for integer primary keys."
               else .ok ())
    let m1 : MInst := { m with props := Model.beforeSave m.props S.columns }
    let cr ← Model.getChangedDatabaseProperties S m1
    if cr.fields.length = 0 then .ok ([], false, m1)
    else if m1.existsInDatabase ∧ cr.skipUpdate = cr.fields.length then .ok ([], false, m1)
    else if !m1.existsInDatabase then do
      let stmt := Stmt.insertInto S.table cr.fields
      let (m2, fields2) :=
        if p.type = ColumnType.integer ∧ p.name = "id" then
          ({ m1 with props := setProp m1.props p.name (.v (.num db.insertId)) },
           objSet cr.fields p.name (.num db.insertId))
        else (m1, cr.fields)
      let m3 ← Model.markSaved S m2 (some fields2)
      .ok ([stmt], true, m3)
    else do
      let stmt := Stmt.updateById S.table cr.fields p.name (pvAsValue (getProp m.props p.name))
      let m3 ← Model.markSaved S m1 (some cr.fields)
      .ok ([stmt], true, m3)) = Except.error e
  rw [he]
  rfl

/-- Witness for C2: a loaded relation whose target was never saved. -/
theorem C2_save_relation_guard_witness :
    ∃ e, Model.save {}
        { table := "testModels", primary := some { name := "id", type := .integer, primary := true },
          columns := [{ name := "id", type := .integer, primary := true }],
          relations := [⟨"parent", "parentId"⟩] }
        { props := [("parent", .model { existsInDatabase := false, primaryName := "id", props := [] })] }
      = .error e := by
  refine C2_save_relation_guard {} _ _ ⟨"parent", "parentId"⟩
    { name := "id", type := .integer, primary := true } (by decide) rfl (by simp) ?_
  refine ⟨rfl, Or.inl ⟨rfl, ?_⟩⟩
  show ({ existsInDatabase := false, primaryName := "id", props := [] } : MTarget).existsInDatabase
      = false ∨ _
  exact Or.inl rfl

/-! ## Claim C7 -/

theorem mem_uniqueArray_aux {α : Type} [DecidableEq α] (a : α) :
    ∀ (l acc : List α),
      (a ∈ l.foldl (fun acc x => if x ∈ acc then acc else acc ++ [x]) acc)
        ↔ a ∈ acc ∨ a ∈ l
  | [], acc => by simp
  | x :: xs, acc => by
    simp only [List.foldl_cons]
    rw [mem_uniqueArray_aux a xs _]
    by_cases hx : x ∈ acc
    · rw [if_pos hx]
      by_cases hax : a = x
      · subst hax
        simp [hx]
      · simp [hax]
    · rw [if_neg hx]
      simp only [List.mem_append, List.mem_singleton, List.mem_cons]
      tauto

theorem mem_uniqueArray {α : Type} [DecidableEq α] (a : α) (l : List α) :
    a ∈ uniqueArray l ↔ a ∈ l := by
  unfold uniqueArray
  rw [mem_uniqueArray_aux a l []]
  simp

theorem uniqueArray_nodup_aux {α : Type} [DecidableEq α] :
    ∀ (l acc : List α), acc.Nodup →
      (l.foldl (fun acc x => if x ∈ acc then acc else acc ++ [x]) acc).Nodup
  | [], _, h => h
  | x :: xs, acc, h => by
    simp only [List.foldl_cons]
    by_cases hx : x ∈ acc
    · rw [if_pos hx]
      exact uniqueArray_nodup_aux xs acc h
    · rw [if_neg hx]
      refine uniqueArray_nodup_aux xs (acc ++ [x]) ?_
      simpa [List.nodup_append] using ⟨h, hx⟩

theorem uniqueArray_nodup {α : Type} [DecidableEq α] (l : List α) : (uniqueArray l).Nodup :=
  uniqueArray_nodup_aux l [] List.nodup_nil

theorem uniqueArray_ne_nil {α : Type} [DecidableEq α] (l : List α) (h : l ≠ []) :
    uniqueArray l ≠ [] := by
  cases l with
  | nil => exact absurd rfl h
  | cons x xs =>
    intro hc
    have : x ∈ uniqueArray (x :: xs) := (mem_uniqueArray x (x :: xs)).mpr (by simp)
    rw [hc] at this
    exact absurd this (List.not_mem_nil x)

theorem whereEqualSQL_arr (c : ColSel) (d : Option String) (vs : List JVal) :
    whereEqualSQL c .Equal (.value (.arr vs)) d
      = (columnToString c d ++ " IN (?)", [.arr vs]) := rfl

/-- The SQL of the standalone query a batch load builds:
`SELECT t.* FROM t WHERE t.col IN (?)` with the id list as the single
parameter. -/
theorem batchLoadQuery_sql (table col : String) (ids : List JVal) :
    (SQueryVal.whereVal { table := table }
        (Where.whereEq (.plain col) .Equal (.value (.arr ids)))).getSQL
      = ("SELECT `" ++ table ++ "`.* FROM `" ++ table ++ "` WHERE `"
          ++ table ++ "`.`" ++ col ++ "` IN (?)", [.arr ids]) := by
  simp only [SQueryVal.whereVal, SQueryVal.getSQL, Where.getSQL, whereEqualSQL_arr,
    columnToString, getDefaultSelect, escapeId, List.filter_nil, List.map_nil, List.foldl_nil,
    String.intercalate, reduceIte, ne_eq, not_true, if_false, List.nil_append,
    String.append_assoc]
  rfl

/-- C7: a batch `load` issues zero queries and returns an empty result for
zero sources (both relation shapes), and for a nonempty source list the
single-valued `ToOne.load` issues exactly one query — a select on the
target table constrained to the de-duplicated set of the sources'
foreign-key values, which is duplicate-free and has exactly the members of
the foreign-key value list. -/
theorem C7_batch_load (db db2 : String × List JVal → List MTarget) (r : ToOneRel)
    (rm : ToManyRel) (ownerPk : String) (models : List MInst) (hne : models ≠ []) :
    ToOne.load db r [] = ([], .ok []) ∧
    ToMany.load ownerPk db2 rm [] = ([], .ok []) ∧
    (ToOne.load db r models).1
      = [("SELECT `" ++ r.table ++ "`.* FROM `" ++ r.table ++ "` WHERE `" ++ r.table
          ++ "`.`" ++ r.primaryName ++ "` IN (?)",
          [.arr (uniqueArray (models.map (fun m => pvAsValue (getProp m.props r.foreignKey))))])] ∧
    (uniqueArray (models.map (fun m => pvAsValue (getProp m.props r.foreignKey)))).Nodup ∧
    (∀ v, v ∈ uniqueArray (models.map (fun m => pvAsValue (getProp m.props r.foreignKey)))
        ↔ v ∈ models.map (fun m => pvAsValue (getProp m.props r.foreignKey))) := by
  refine ⟨?_, ?_, ?_, uniqueArray_nodup _, fun v => mem_uniqueArray v _⟩
  · rfl
  · rfl
  · have hids : uniqueArray (models.map (fun m => pvAsValue (getProp m.props r.foreignKey)))
        ≠ [] := by
      apply uniqueArray_ne_nil
      simpa using hne
    have hlen : ¬ (uniqueArray (models.map
        (fun m => pvAsValue (getProp m.props r.foreignKey)))).length = 0 := by
      simpa [List.length_eq_zero] using hids
    unfold ToOne.load
    rw [if_neg hlen]
    simp only
    rw [batchLoadQuery_sql]

/-- Witness for C7 on two concrete owners sharing one foreign-key value. -/
theorem C7_batch_load_witness :
    (ToOne.load (fun _ => [])
        { table := "animals", primaryName := "id", modelKey := "shape", foreignKey := "shape_id" }
        [{ props := [("shape_id", .v (.str "lion_id"))] },
         { props := [("shape_id", .v (.str "lion_id"))] }]).1
      = [("SELECT `animals`.* FROM `animals` WHERE `animals`.`id` IN (?)",
          [.arr [.str "lion_id"]])] ∧
    ToOne.load (fun _ => [])
        { table := "animals", primaryName := "id", modelKey := "shape", foreignKey := "shape_id" }
        [] = ([], .ok []) := by
  have h := C7_batch_load (fun _ => []) (fun _ => [])
    { table := "animals", primaryName := "id", modelKey := "shape", foreignKey := "shape_id" }
    { table := "toys", modelKey := "toys", foreignKey := "dog_id" } "id"
    [{ props := [("shape_id", .v (.str "lion_id"))] },
     { props := [("shape_id", .v (.str "lion_id"))] }] (by simp)
  exact ⟨h.2.2.1, h.1⟩

/-- Witness for C8 at a concrete mismatch (storage reports zero affected
rows for one requested link). -/
theorem C8_link_unlink_mismatch_witness :
    ManyToManyRelation.link { affectedRows := 0 }
        { modelKey := "friends", tableA := "testModels", tableB := "testModels",
          primaryAName := "id", primaryBName := "id", sameModel := true }
        { props := [("id", .v (.num 1)), ("friends", .models [])] }
        [{ existsInDatabase := true, primaryName := "id", props := [("id", .num 2)] }] none
      = .error "Fallback behaviour net yet implemented" ∧
    ManyToManyRelation.unlink { affectedRows := 0 }
        { modelKey := "friends", tableA := "testModels", tableB := "testModels",
          primaryAName := "id", primaryBName := "id", sameModel := true }
        { props := [("id", .v (.num 1)), ("friends", .models [])] }
        [{ existsInDatabase := true, primaryName := "id", props := [("id", .num 2)] }]
      = .error "Fallback behaviour net yet implemented" := by
  exact C8_link_unlink_mismatch { affectedRows := 0 }
    { modelKey := "friends", tableA := "testModels", tableB := "testModels",
      primaryAName := "id", primaryBName := "id", sameModel := true }
    { props := [("id", .v (.num 1)), ("friends", .models [])] }
    [{ existsInDatabase := true, primaryName := "id", props := [("id", .num 2)] }] []
    (by decide) (by decide) (by decide) (by decide)

end SimpleDB
